import Mathlib

/-!
# ttyhop: neighbor scan, pane mover and client selection

A shallow embedding of `hopper.go` (the C orchestrator
`alacritty_focus_neighbor_dbg` inside the cgo preamble and the Go tmux helpers
`tmuxTryPaneMove`, `pickActiveClient`, `tmuxSelectEdgePane`).

Conventions of the embedding:

* window coordinates (`CGFloat`) are IEEE 754 doubles; sums, differences and
  products round to the nearest double, ties to even, as the code computes them;
* an accessibility element (`AXUIElementRef`) is a natural number, `CFEqual`
  is equality of these numbers;
* the accessibility API is a snapshot record `AXWorld` of what each query
  answers during one call;
* the injectable command runner `runTmuxCmd` is a function of the commands
  sent before (oldest first) and the arguments, so stateful runners are
  covered; every command sent is appended to a log;
* debug logging (`DBG`, `dbg`) has no effect on control flow and is left out.
-/

namespace TtyHop

/-! ## Double-precision arithmetic (`CGFloat` on 64-bit targets) -/

/-- IEEE 754 binary64 value: not-a-number, an infinity with its sign, or the
finite number `m * 2 ^ e`. The two zeros are not told apart: no comparison of
the scan depends on the sign of a zero. -/
inductive CGFloat where
  | nan : CGFloat
  | inf (neg : Bool) : CGFloat
  | fin (m e : Int) : CGFloat
deriving DecidableEq

namespace CGFloat

/-- Floor of the binary logarithm, `fuel` bounding the number of halvings. -/
def log2Fuel : Nat → Nat → Nat
  | 0, _ => 0
  | fuel + 1, n => if n < 2 then 0 else log2Fuel fuel (n / 2) + 1

/-- Floor of the binary logarithm of a positive number. -/
def ilog2 (n : Nat) : Nat := log2Fuel n n

/-- Rounding of the exact number `m * 2 ^ e` to the nearest double, ties to
the even significand: 53 significant bits, least exponent `-1074`, overflow to
infinity. -/
def roundNearestEven (m e : Int) : CGFloat :=
  if m = 0 then fin 0 0
  else
    let a := m.natAbs
    let len : Int := (ilog2 a : Int) + 1
    let qe : Int := max (len - 53 + e) (-1074)
    if qe ≤ e then
      if len + e > 1024 then inf (decide (m < 0)) else fin m e
    else
      let s := (qe - e).toNat
      let f := a >>> s
      let r := a - (f <<< s)
      let half := 1 <<< (s - 1)
      let n :=
        if r < half then f
        else if half < r then f + 1
        else if f % 2 = 0 then f else f + 1
      if n = 0 then fin 0 0
      else if (ilog2 n : Int) + qe ≥ 1024 then inf (decide (m < 0))
      else fin (if m < 0 then -(n : Int) else (n : Int)) qe

/-- Sign change, C unary minus. -/
def neg : CGFloat → CGFloat
  | nan => nan
  | inf n => inf (!n)
  | fin m e => fin (-m) e

/-- Absolute value, C `fabs`. -/
def fabs : CGFloat → CGFloat
  | nan => nan
  | inf _ => inf false
  | fin m e => fin |m| e

/-- The integer `m * 2 ^ (e - k)`, for `k ≤ e`. -/
def align (m e k : Int) : Int := m * (((1 : Nat) <<< (e - k).toNat : Nat) : Int)

/-- Double addition. -/
def add : CGFloat → CGFloat → CGFloat
  | nan, _ => nan
  | _, nan => nan
  | inf n1, inf n2 => if n1 = n2 then inf n1 else nan
  | inf n, fin _ _ => inf n
  | fin _ _, inf n => inf n
  | fin m1 e1, fin m2 e2 =>
    roundNearestEven (align m1 e1 (min e1 e2) + align m2 e2 (min e1 e2)) (min e1 e2)

/-- Double subtraction. -/
def sub (a b : CGFloat) : CGFloat := add a (neg b)

/-- Double multiplication. -/
def mul : CGFloat → CGFloat → CGFloat
  | nan, _ => nan
  | _, nan => nan
  | inf n1, inf n2 => inf (n1 != n2)
  | inf n, fin m _ => if m = 0 then nan else inf (n != decide (m < 0))
  | fin m _, inf n => if m = 0 then nan else inf (n != decide (m < 0))
  | fin m1 e1, fin m2 e2 => roundNearestEven (m1 * m2) (e1 + e2)

/-- Comparison `a < b` of doubles: false when either is not a number. -/
def lt : CGFloat → CGFloat → Bool
  | nan, _ => false
  | _, nan => false
  | inf n1, inf n2 => n1 && !n2
  | inf n, fin _ _ => n
  | fin _ _, inf n => !n
  | fin m1 e1, fin m2 e2 =>
    decide (align m1 e1 (min e1 e2) < align m2 e2 (min e1 e2))

/-- Whether a double is not a number. -/
def isNaN : CGFloat → Bool
  | nan => true
  | _ => false

/-- Comparison `a <= b` of doubles: false when either is not a number. -/
def le (a b : CGFloat) : Bool := !isNaN a && !isNaN b && !lt b a

/-- The exact value of a finite double; `0` for the others. -/
def toRat : CGFloat → ℚ
  | fin m e => (m : ℚ) * (2 : ℚ) ^ e
  | _ => 0

/-- Position of a double in the extended rationals; used for numbers only. -/
def key : CGFloat → WithBot (WithTop ℚ)
  | nan => ⊥
  | inf true => ⊥
  | inf false => ((⊤ : WithTop ℚ) : WithBot (WithTop ℚ))
  | fin m e => (((m : ℚ) * (2 : ℚ) ^ e : ℚ) : WithTop ℚ)

end CGFloat

/-- Integer literals of the code and of the examples; exact up to `2 ^ 53`. -/
instance (n : Nat) : OfNat CGFloat n := ⟨CGFloat.fin (n : Int) 0⟩

/-- Unary minus of the code. -/
instance : Neg CGFloat := ⟨CGFloat.neg⟩

/-! ## Geometry (CoreGraphics) -/

/-- Rectangle in screen coordinates, origin and size, as `CGRect`. -/
structure CGRect where
  x : CGFloat
  y : CGFloat
  width : CGFloat
  height : CGFloat
deriving DecidableEq

/-- Horizontal centre of a rectangle (`CGRectGetMidX`): origin plus half the
width, in double arithmetic. -/
def CGRectGetMidX (r : CGRect) : CGFloat := r.x.add (r.width.mul (.fin 1 (-1)))

/-- Vertical centre of a rectangle (`CGRectGetMidY`): origin plus half the
height, in double arithmetic. -/
def CGRectGetMidY (r : CGRect) : CGFloat := r.y.add (r.height.mul (.fin 1 (-1)))

/-- Height of the standardized rectangle (`CGRectGetHeight`), never negative. -/
def CGRectGetHeight (r : CGRect) : CGFloat := r.height.fabs

/-- Largest finite double, the initial value of `bestDx` (`CGFLOAT_MAX`,
on 64-bit targets `DBL_MAX`): `(2 ^ 53 - 1) * 2 ^ 971`. -/
def CGFLOAT_MAX : CGFloat := .fin 9007199254740991 971

/-- Accessibility element handle. -/
abbrev AXUIElementRef := Nat

/-! ## The neighbor scan of `alacritty_focus_neighbor_dbg` -/

/-- Loop-carried variables of the scan: `best`, `bestDx`, `bestIdx`. -/
structure ScanState where
  best : Option AXUIElementRef
  bestDx : CGFloat
  bestIdx : Int
deriving DecidableEq

/-- Values before the loop: `best = NULL`, `bestDx = CGFLOAT_MAX`,
`bestIdx = -1`. -/
def scanInit : ScanState := ⟨none, CGFLOAT_MAX, -1⟩

/-- One iteration of the `for` loop over the window array; every operation
and comparison is the double-precision one. -/
def scanStep (getRect : AXUIElementRef → Option CGRect) (east : Bool)
    (meWin : AXUIElementRef) (cx cy h : CGFloat) (i : Nat) (w : AXUIElementRef)
    (s : ScanState) : ScanState :=
  if w = meWin then s
  else
    match getRect w with
    | none => s
    | some r =>
      let dx := (CGRectGetMidX r).sub cx
      let dy := ((CGRectGetMidY r).sub cy).fabs
      let horiz : Bool := dy.le (h.mul (.fin 3 (-2)))
      if !horiz then s
      else
        let s1 : ScanState :=
          if !east && dx.lt 0 && dx.neg.lt s.bestDx then
            ⟨some w, dx.neg, (i : Int)⟩
          else s
        if east && CGFloat.lt 0 dx && dx.lt s1.bestDx then
          ⟨some w, dx, (i : Int)⟩
        else s1

/-- The `for (i = ...; i < n; i++)` loop, from index `i` over the remaining
windows. -/
def scanLoop (getRect : AXUIElementRef → Option CGRect) (east : Bool)
    (meWin : AXUIElementRef) (cx cy h : CGFloat) :
    Nat → List AXUIElementRef → ScanState → ScanState
  | _, [], s => s
  | i, w :: ws, s =>
    scanLoop getRect east meWin cx cy h (i + 1) ws
      (scanStep getRect east meWin cx cy h i w s)

/-- The whole scan for the current window `meWin` with rectangle `meR`. -/
def neighborScan (getRect : AXUIElementRef → Option CGRect) (east : Bool)
    (meWin : AXUIElementRef) (meR : CGRect) (wins : List AXUIElementRef) :
    ScanState :=
  scanLoop getRect east meWin (CGRectGetMidX meR) (CGRectGetMidY meR)
    (CGRectGetHeight meR) 0 wins scanInit

/-- The band test of the scan as the code computes it: the double
`fabs(midY - cy)` compared with the double `h * 0.75`. -/
def inBand (cy h : CGFloat) (r : CGRect) : Bool :=
  ((CGRectGetMidY r).sub cy).fabs.le (h.mul (.fin 3 (-2)))

/-- A sibling the scan may choose, in the words of the specification with the
code's arithmetic: `w` is not the current window, its rectangle is readable,
it passes the band test, and its mid-x offset `dx = midX - cx`, computed in
doubles, is on the requested side (`dx > 0` for east, `dx < 0` for west); `d`
is the distance `|dx|`. -/
def Eligible (getRect : AXUIElementRef → Option CGRect) (east : Bool)
    (meWin : AXUIElementRef) (cx cy h : CGFloat) (w : AXUIElementRef)
    (d : CGFloat) : Prop :=
  w ≠ meWin ∧ ∃ r, getRect w = some r ∧ inBand cy h r = true ∧
    (if east then CGFloat.lt 0 ((CGRectGetMidX r).sub cx) = true
      else ((CGRectGetMidX r).sub cx).lt 0 = true) ∧
    d = ((CGRectGetMidX r).sub cx).fabs


/-! ## Go standard library pieces used by the tmux helpers -/

/-- White space as `unicode.IsSpace` sees it: tab, line feed, vertical tab,
form feed, carriage return, space, U+0085, U+00A0, U+1680, U+2000 to U+200A,
U+2028, U+2029, U+202F, U+205F, U+3000. -/
def isSpace (c : Char) : Bool :=
  let n := c.toNat
  (0x09 ≤ n && n ≤ 0x0d) || n = 0x20 || n = 0x85 || n = 0xa0 || n = 0x1680 ||
  (0x2000 ≤ n && n ≤ 0x200a) || n = 0x2028 || n = 0x2029 || n = 0x202f ||
  n = 0x205f || n = 0x3000

/-- Drop leading white space. -/
def trimLeft : List Char → List Char
  | [] => []
  | c :: cs => if isSpace c then trimLeft cs else c :: cs

/-- Go `strings.TrimSpace`: leading and trailing white space removed. -/
def TrimSpace (s : String) : String :=
  ⟨(trimLeft (trimLeft s.data).reverse).reverse⟩

/-- Worker of `Fields`: `cur` is the field being read, reversed. -/
def fieldsAux : List Char → List Char → List String
  | [], cur => if cur.isEmpty then [] else [⟨cur.reverse⟩]
  | c :: cs, cur =>
    if isSpace c then
      if cur.isEmpty then fieldsAux cs [] else ⟨cur.reverse⟩ :: fieldsAux cs []
    else fieldsAux cs (c :: cur)

/-- Go `strings.Fields`: the maximal runs of non-space characters. -/
def Fields (s : String) : List String := fieldsAux s.data []

/-- Worker of `SplitLines`: `cur` is the line being read, reversed. -/
def splitAux : List Char → List Char → List String
  | [], cur => [⟨cur.reverse⟩]
  | c :: cs, cur =>
    if c = '\n' then ⟨cur.reverse⟩ :: splitAux cs [] else splitAux cs (c :: cur)

/-- Go `strings.Split(s, "\n")`: always at least one piece. -/
def SplitLines (s : String) : List String := splitAux s.data []

/-- The two errors of `strconv`: `ErrSyntax` and `ErrRange`. -/
inductive NumError where
  | ErrSyntax
  | ErrRange
deriving DecidableEq

/-- Digit loop of `strconv.ParseUint(s, 10, 64)` with the value `n` read so
far: a character that is not a decimal digit gives `0` and a syntax error,
an overflow gives `2^64 - 1` and a range error. -/
def parseUintLoop : List Char → Nat → Nat × Option NumError
  | [], n => (n, none)
  | c :: cs, n =>
    if '0' ≤ c && c ≤ '9' then
      let d := c.toNat - '0'.toNat
      if n ≥ (2 ^ 64 - 1) / 10 + 1 then (2 ^ 64 - 1, some .ErrRange)
      else
        let n10 := n * 10
        let n1 := (n10 + d) % 2 ^ 64
        if n1 < n10 then (2 ^ 64 - 1, some .ErrRange) else parseUintLoop cs n1
    else (0, some .ErrSyntax)

/-- Go `strconv.ParseUint(s, 10, 64)`. -/
def ParseUint (s : List Char) : Nat × Option NumError :=
  if s.isEmpty then (0, some .ErrSyntax) else parseUintLoop s 0

/-- Go `strconv.ParseInt(s, 10, 64)`: a syntax error gives `0`, a range error
the nearest `int64`. -/
def ParseInt (s : String) : Int × Option NumError :=
  match s.data with
  | [] => (0, some .ErrSyntax)
  | c :: cs =>
    let neg := decide (c = '-')
    let ds := if c = '+' || c = '-' then cs else c :: cs
    let (un, err) := ParseUint ds
    if err = some .ErrSyntax then (0, err)
    else if !neg && un ≥ 2 ^ 63 then ((2 : Int) ^ 63 - 1, some .ErrRange)
    else if neg && un > 2 ^ 63 then (-(2 : Int) ^ 63, some .ErrRange)
    else (if neg then -(un : Int) else (un : Int), none)

/-- Go `strconv.Atoi` on a 64-bit target. -/
def Atoi (s : String) : Int × Option NumError := ParseInt s

/-! ## Command runner -/

/-- What a call of the runner returns: the output and the Go `error`
(`none` is `nil`). -/
structure CmdResult where
  out : String
  err : Option String
deriving DecidableEq

/-- Type of the injectable runner `runTmuxCmd`: the commands sent before
(oldest first) and the arguments of this call give the result. -/
abbrev runTmuxCmdFunc := List (List String) → List String → CmdResult

/-- Process environment and the package variable `runTmuxCmd`. -/
structure Env where
  TMUX : String
  TTYHOP_EDGE_WAIT_MS : String
  runTmuxCmd : runTmuxCmdFunc

/-- Observable effects of the Go helpers: commands sent to the runner (oldest
first) and the number of `time.Sleep` calls. -/
structure GoState where
  cmds : List (List String)
  sleeps : Nat
deriving DecidableEq

/-- A call `runTmuxCmd(args...)`. -/
def callTmux (env : Env) (args : List String) (st : GoState) :
    CmdResult × GoState :=
  (env.runTmuxCmd st.cmds args, { st with cmds := st.cmds ++ [args] })

/-- Production runner `defaultRunTmuxCmd` seen from its result: given what
running `tmux` gave (combined output, whether `cmd.Run` failed), the error
case returns the empty string and success the trimmed output. -/
def defaultRunTmuxCmd (raw : String) (failed : Option String) : CmdResult :=
  match failed with
  | some e => ⟨"", some e⟩
  | none => ⟨TrimSpace raw, none⟩

/-! ## `tmuxTryPaneMove` -/

/-- Go `tmuxTryPaneMove(east)`: whether the pane moved, and the effects. -/
def tmuxTryPaneMove (env : Env) (east : Bool) (st : GoState) : Bool × GoState :=
  if env.TMUX = "" then (false, st)
  else
    let (r1, st1) := callTmux env ["display", "-p", "#{pane_id}"] st
    let oldID := r1.out
    if r1.err.isSome || TrimSpace oldID = "" then (false, st1)
    else
      let edgeKey := if !east then "#{pane_at_left}" else "#{pane_at_right}"
      let dir := if !east then "-L" else "-R"
      let (r2, st2) := callTmux env ["display", "-p", edgeKey] st1
      if r2.err.isSome then (false, st2)
      else if TrimSpace r2.out = "1" then (false, st2)
      else
        let (_, st3) := callTmux env ["select-pane", dir] st2
        let (r4, st4) := callTmux env ["display", "-p", "#{pane_id}"] st3
        let newID := r4.out
        if TrimSpace newID = "" || newID = oldID then (false, st4)
        else (true, st4)

/-- Exported bridge `goTmuxTryPaneMove`: `1` if the pane moved, else `0`. -/
def goTmuxTryPaneMove (env : Env) (east : Int) (st : GoState) : Int × GoState :=
  let (moved, st1) := tmuxTryPaneMove env (decide (east ≠ 0)) st
  (if moved then 1 else 0, st1)

/-! ## `pickActiveClient` -/

/-- Local type `rec` of `pickActiveClient`. -/
structure Rec where
  tty : String
  active : Bool
  act : Int
deriving DecidableEq

/-- The `for` loop of `pickActiveClient` over the lines. The pair of locals
`best`, `have` is one option: `some` exactly when `have` is set. -/
def pickLoop : List String → Option Rec → String × Option String
  | [], best =>
    match best with
    | some b => (b.tty, none)
    | none => ("", none)
  | ln :: rest, best =>
    match Fields ln with
    | f0 :: f1 :: f2 :: _ =>
      let a := (ParseInt f2).1
      let r : Rec := ⟨f0, decide (f1 = "1"), a⟩
      if r.active then (r.tty, none)
      else
        match best with
        | none => pickLoop rest (some r)
        | some b => if r.act > b.act then pickLoop rest (some r) else pickLoop rest (some b)
    | _ => pickLoop rest best

/-- Go `pickActiveClient()`: the tty chosen, the error, and the effects. -/
def pickActiveClient (env : Env) (st : GoState) :
    (String × Option String) × GoState :=
  let (r, st1) := callTmux env
    ["list-clients", "-F", "#{client_tty} #{client_active} #{client_activity}"] st
  if r.err.isSome || r.out = "" then (("", r.err), st1)
  else (pickLoop (SplitLines r.out) none, st1)

/-! ## `tmuxSelectEdgePane` -/

/-- Default poll budget in milliseconds. -/
def defaultWaitMs : Int := 200

/-- Poll interval in milliseconds. -/
def pollIntervalMs : Int := 25

/-- The inner `for` loop over the pane lines: the id of the first line of
exactly three fields flagged at the landing edge, `""` when there is none. -/
def findTarget (east : Bool) : List String → String
  | [] => ""
  | ln :: rest =>
    match Fields ln with
    | [id, atL, atR] =>
      if east && atL = "1" then id
      else if !east && atR = "1" then id
      else findTarget east rest
    | _ => findTarget east rest

/-- The polling loop with `n` iterations left. -/
def pollLoop (env : Env) (east : Bool) : Nat → GoState → GoState
  | 0, st => st
  | n + 1, st =>
    let st0 : GoState := { st with sleeps := st.sleeps + 1 }
    let ((tty, err), st1) := pickActiveClient env st0
    if err.isSome || TrimSpace tty = "" then pollLoop env east n st1
    else
      let (rw, st2) := callTmux env ["display", "-p", "-t", tty, "#{window_id}"] st1
      let win := rw.out
      if rw.err.isSome || TrimSpace win = "" then pollLoop env east n st2
      else
        let (rp, st3) := callTmux env
          ["list-panes", "-t", win, "-F", "#{pane_id} #{pane_at_left} #{pane_at_right}"] st2
        let panes := rp.out
        if rp.err.isSome || TrimSpace panes = "" then pollLoop env east n st3
        else
          let target := findTarget east (SplitLines panes)
          if target ≠ "" then (callTmux env ["select-pane", "-t", target] st3).2
          else st3

/-- The poll budget used: the argument when positive, else the environment
value when it parses to a positive number, else the default. -/
def effectiveWaitMs (env : Env) (waitMs : Int) : Int :=
  if waitMs ≤ 0 then
    let (waitMsVal, err) := Atoi env.TTYHOP_EDGE_WAIT_MS
    if err.isSome || waitMsVal ≤ 0 then defaultWaitMs else waitMsVal
  else waitMs

/-- Go `tmuxSelectEdgePane(east, waitMs)`. -/
def tmuxSelectEdgePane (env : Env) (east : Bool) (waitMs : Int) (st : GoState) :
    GoState :=
  let numPolls := Int.tdiv (effectiveWaitMs env waitMs) pollIntervalMs
  pollLoop env east numPolls.toNat st

/-- Exported bridge `goTmuxSelectEdge`. -/
def goTmuxSelectEdge (env : Env) (east waitMs : Int) (st : GoState) : GoState :=
  tmuxSelectEdgePane env (decide (east ≠ 0)) waitMs st

/-! ## Accessibility side of `alacritty_focus_neighbor_dbg` -/

/-- What `NSRunningApplication` tells about an application. -/
structure RunningApp where
  bundleIdentifier : Option String
  localizedName : Option String

/-- Snapshot of the answers of the accessibility and workspace APIs during
one call. -/
structure AXWorld where
  /-- Result of `AXIsProcessTrustedWithOptions`. -/
  trusted : Bool
  /-- Element of `[NSWorkspace frontmostApplication]`, if any. -/
  frontmostApp : Option AXUIElementRef
  /-- Value of `kAXFocusedApplicationAttribute`, if any. -/
  focusedApp : Option AXUIElementRef
  /-- Running application of an element, if any. -/
  runningApp : AXUIElementRef → Option RunningApp
  /-- Value of `kAXFocusedWindowAttribute` of an application. -/
  focusedWindowAttr : AXUIElementRef → Option AXUIElementRef
  /-- Value of `kAXWindowsAttribute` of an application. -/
  windowsAttr : AXUIElementRef → Option (List AXUIElementRef)
  /-- Value of `kAXPositionAttribute` of a window. -/
  position : AXUIElementRef → Option (CGFloat × CGFloat)
  /-- Value of `kAXSizeAttribute` of a window. -/
  size : AXUIElementRef → Option (CGFloat × CGFloat)

/-- C `ensure_trusted_i`. -/
def ensure_trusted_i (ax : AXWorld) : Int := if ax.trusted then 1 else 0

/-- C `ax_get_rect`: position and size both readable. -/
def ax_get_rect (ax : AXWorld) (win : AXUIElementRef) : Option CGRect :=
  match ax.position win with
  | none => none
  | some p =>
    match ax.size win with
    | none => none
    | some s => some ⟨p.1, p.2, s.1, s.2⟩

/-- C `app_is_alacritty`. -/
def app_is_alacritty (ax : AXWorld) (axApp : AXUIElementRef) : Bool :=
  match ax.runningApp axApp with
  | none => false
  | some ra =>
    let bid := ra.bundleIdentifier.getD ""
    let name := ra.localizedName.getD ""
    bid = "org.alacritty" || bid = "io.alacritty" || name = "Alacritty"

/-- C `app_focused_window`: the focused window, else the first window. -/
def app_focused_window (ax : AXWorld) (axApp : AXUIElementRef) :
    Option AXUIElementRef :=
  match ax.focusedWindowAttr axApp with
  | some fw => some fw
  | none =>
    match ax.windowsAttr axApp with
    | none => none
    | some wins => wins.head?

/-- C `app_windows_retained`. -/
def app_windows_retained (ax : AXWorld) (axApp : AXUIElementRef) :
    Option (List AXUIElementRef) :=
  ax.windowsAttr axApp

/-- Calls made to the accessibility side, as observed. -/
inductive AXCall where
  | ensureTrusted
  | frontmostApp
  | focusedApp
  | isAlacritty (axApp : AXUIElementRef)
  | focusedWindow (axApp : AXUIElementRef)
  | getRect (win : AXUIElementRef)
  | windows (axApp : AXUIElementRef)
  | focusWindow (axApp win : AXUIElementRef)
  | selectEdge (east waitMs : Int)
deriving DecidableEq

/-- Effects of one hop: the Go side and the accessibility calls in order
(`selectEdge` marks the call of `goTmuxSelectEdge`). -/
structure HopState where
  go : GoState
  ax : List AXCall
deriving DecidableEq

/-- Geometry reads of the scan: one `ax_get_rect` per window that is not the
current one. -/
def scanReads (meWin : AXUIElementRef) (wins : List AXUIElementRef) : List AXCall :=
  (wins.filter (fun w => w ≠ meWin)).map AXCall.getRect

set_option linter.unusedVariables false in
/-- C `alacritty_focus_neighbor_dbg`: the return code and the effects. -/
def alacritty_focus_neighbor_dbg (env : Env) (ax : AXWorld)
    (east debug do_edge edge_steps wait_ms : Int) (st : HopState) :
    Int × HopState :=
  let (moved, g1) := goTmuxTryPaneMove env east st.go
  if moved ≠ 0 then (0, { st with go := g1 })
  else
    let t1 := st.ax ++ [AXCall.ensureTrusted]
    if ensure_trusted_i ax = 0 then (20, ⟨g1, t1⟩)
    else
      let t2 := t1 ++ [AXCall.frontmostApp]
      let t3 := t2 ++ (if ax.frontmostApp.isNone then [AXCall.focusedApp] else [])
      match (ax.frontmostApp <|> ax.focusedApp) with
      | none => (10, ⟨g1, t3⟩)
      | some axApp =>
        let t4 := t3 ++ [AXCall.isAlacritty axApp]
        if !app_is_alacritty ax axApp then (1, ⟨g1, t4⟩)
        else
          let t5 := t4 ++ [AXCall.focusedWindow axApp]
          match app_focused_window ax axApp with
          | none => (2, ⟨g1, t5⟩)
          | some meWin =>
            let t6 := t5 ++ [AXCall.getRect meWin]
            match ax_get_rect ax meWin with
            | none => (3, ⟨g1, t6⟩)
            | some meR =>
              let t7 := t6 ++ [AXCall.windows axApp]
              match app_windows_retained ax axApp with
              | none => (4, ⟨g1, t7⟩)
              | some wins =>
                let t8 := t7 ++ scanReads meWin wins
                let s := neighborScan (ax_get_rect ax) (decide (east ≠ 0)) meWin meR wins
                match s.best with
                | some best =>
                  let t9 := t8 ++ [AXCall.focusWindow axApp best]
                  if do_edge ≠ 0 then
                    (0, ⟨goTmuxSelectEdge env east wait_ms g1,
                         t9 ++ [AXCall.selectEdge east wait_ms]⟩)
                  else (0, ⟨g1, t9⟩)
                | none => (5, ⟨g1, t8⟩)

/-! ## `cgoHopper.FocusNeighbor` -/

/-- Conversion of a Go `int` to a C `int` (`C.int(n)`): the low 32 bits,
signed. -/
def toCInt (n : Int) : Int := (n + 2 ^ 31) % 2 ^ 32 - 2 ^ 31

/-- Go `(*cgoHopper).FocusNeighbor`; `waitMs` is the field `h.waitMs`. -/
def FocusNeighbor (env : Env) (ax : AXWorld) (waitMs : Int)
    (east debug doEdge : Bool) (edgeSteps : Int) (st : HopState) : Int × HopState :=
  let cEast : Int := if east then 1 else 0
  let cDebug : Int := if debug then 1 else 0
  let cDoEdge : Int := if !doEdge then 0 else 1
  let cEdgeSteps := toCInt edgeSteps
  let cWaitMs := toCInt waitMs
  alacritty_focus_neighbor_dbg env ax cEast cDebug cDoEdge cEdgeSteps cWaitMs st

/-- The accessibility calls of a window search that reaches the end of the
scan, in order. -/
def searchCalls (ax : AXWorld) (axApp meWin : AXUIElementRef)
    (wins : List AXUIElementRef) : List AXCall :=
  [AXCall.ensureTrusted, AXCall.frontmostApp] ++
    (if ax.frontmostApp.isNone then [AXCall.focusedApp] else []) ++
    [AXCall.isAlacritty axApp, AXCall.focusedWindow axApp, AXCall.getRect meWin,
      AXCall.windows axApp] ++ scanReads meWin wins

/-! ## Concrete inputs used in the examples below -/

/-- Current window `0` centred at `(0, 50)` with height `100`, and window `1`
of width `0` whose centre lies exactly `CGFLOAT_MAX` to the east, at the same
height. -/
def sentinelRects : AXUIElementRef → Option CGRect
  | 0 => some ⟨-50, 0, 100, 100⟩
  | 1 => some ⟨CGFLOAT_MAX, 0, 0, 100⟩
  | _ => none

/-- Current window `0` centred at `(-1, 50)`; window `1` centred at
`(2 ^ 53, 50)` and window `2` centred at `(2 ^ 53 - 1, 50)`, all 100 by
100. -/
def roundingRects : AXUIElementRef → Option CGRect
  | 0 => some ⟨-51, 0, 100, 100⟩
  | 1 => some ⟨9007199254740942, 0, 100, 100⟩
  | 2 => some ⟨9007199254740941, 0, 100, 100⟩
  | _ => none

/-- Current window `0` at the origin, 100 by 100; windows `1`, `2`, `3` of the
same size at mid-x offsets `+50`, `+10`, `-30`; window `4` at offset `+10`
again. -/
def rowRects : AXUIElementRef → Option CGRect
  | 0 => some ⟨0, 0, 100, 100⟩
  | 1 => some ⟨50, 0, 100, 100⟩
  | 2 => some ⟨10, 0, 100, 100⟩
  | 3 => some ⟨-30, 0, 100, 100⟩
  | 4 => some ⟨10, 20, 100, 100⟩
  | _ => none

/-- Current window `0` centred at `(50, 50)` with height `100`; window `1`
centred at `(60, -50)`, that is `10` to the east and `100` above; window `2`
with origin at the double nearest `74.99` and window `3` with origin at the
double nearest `75.01`, so centred `10` to the east and about `74.99` and
`75.01` below. -/
def bandRects : AXUIElementRef → Option CGRect
  | 0 => some ⟨0, 0, 100, 100⟩
  | 1 => some ⟨10, -100, 100, 100⟩
  | 2 => some ⟨10, .fin 5276952125883023 (-46), 100, 100⟩
  | 3 => some ⟨10, .fin 5278359500766577 (-46), 100, 100⟩
  | _ => none

/-- Current window `0` with origin `(0, -450.05)`, width `100` and height
`900.1` (the nearest doubles), so centred at `(50, 0)`; window `1`, 100 by
100, centred at `(60, v)` for `v` the double nearest `675.075`. -/
def tallRects : AXUIElementRef → Option CGRect
  | 0 => some ⟨0, .fin (-7917363329289421) (-44), 100, .fin 7917363329289421 (-43)⟩
  | 1 => some ⟨10, .fin 2749108922928333 (-42), 100, 100⟩
  | _ => none

/-- Accessibility snapshot over the rectangles of `bandRects`: a trusted
process, Alacritty (element `100`) in front with focused window `0` and the
windows `0` and `1`, where `1` lies `100` above the band of `0`. -/
def bandWorld : AXWorld where
  trusted := true
  frontmostApp := some 100
  focusedApp := none
  runningApp := fun _ => some ⟨some "org.alacritty", some "Alacritty"⟩
  focusedWindowAttr := fun _ => some 0
  windowsAttr := fun _ => some [0, 1]
  position := fun w => (bandRects w).map (fun r => (r.x, r.y))
  size := fun w => (bandRects w).map (fun r => (r.width, r.height))

/-- Runner on which every command fails, as in the test `CommandError`. -/
def failingRunner : runTmuxCmdFunc := fun _ _ => ⟨"", some "tmux command failed"⟩

/-- Environment outside of any tmux session. -/
def noTmuxEnv : Env := ⟨"", "", failingRunner⟩

/-- Environment inside a tmux session whose runner fails every command. -/
def failingEnv : Env := ⟨"/tmp/tmux-1000/default,21,0", "", failingRunner⟩

/-- Runner of the test `Success`: the pane is not at the edge, the active
pane is `%0` on the first query and `%1` afterwards. -/
def successRunner : runTmuxCmdFunc := fun sent args =>
  if args = ["display", "-p", "#{pane_at_right}"] then ⟨"0", none⟩
  else if args = ["display", "-p", "#{pane_id}"] then
    if sent.contains args then ⟨"%1", none⟩ else ⟨"%0", none⟩
  else ⟨"", none⟩

/-- Environment inside a tmux session with the runner of the test
`Success`. -/
def successEnv : Env := ⟨"/tmp/tmux-1000/default,21,0", "", successRunner⟩

/-- Runner whose re-query of the active pane, after the directional select,
returns the new pane id `%1` together with an error; the pane is `%0` before
and not at the edge. -/
def requeryErrRunner : runTmuxCmdFunc := fun sent args =>
  if args = ["display", "-p", "#{pane_at_right}"] then ⟨"0", none⟩
  else if args = ["display", "-p", "#{pane_id}"] then
    if sent.contains args then ⟨"%1", some "exit status 1"⟩ else ⟨"%0", none⟩
  else ⟨"", none⟩

/-- Environment inside a tmux session with `requeryErrRunner`. -/
def requeryErrEnv : Env := ⟨"/tmp/tmux-1000/default,21,0", "", requeryErrRunner⟩

/-- Runner of the test `AtEdge`: the pane is at the right edge, every other
command answers `%0`. -/
def atEdgeRunner : runTmuxCmdFunc := fun _ args =>
  if args = ["display", "-p", "#{pane_at_right}"] then ⟨"1", none⟩ else ⟨"%0", none⟩

/-- Environment inside a tmux session with the runner of the test `AtEdge`. -/
def atEdgeEnv : Env := ⟨"/tmp/tmux-1000/default,21,0", "", atEdgeRunner⟩

/-- The query of the active pane id. -/
def paneIdCmd : List String := ["display", "-p", "#{pane_id}"]

/-- The query of the edge flag in the requested direction: `pane_at_right` for
east, `pane_at_left` for west. -/
def edgeCmd (east : Bool) : List String :=
  ["display", "-p", if east then "#{pane_at_right}" else "#{pane_at_left}"]

/-- The directional select, without a target: `-R` for east, `-L` for west. -/
def selectCmd (east : Bool) : List String :=
  ["select-pane", if east then "-R" else "-L"]

/-- A client record, in the words of the specification: a line of the
`list-clients` output with at least the three fields tty, active flag and
activity timestamp. -/
def IsClientRecord (ln : String) : Prop := 3 ≤ (Fields ln).length

instance (ln : String) : Decidable (IsClientRecord ln) :=
  inferInstanceAs (Decidable (3 ≤ (Fields ln).length))

/-- A client record flagged active: its second field is `1`. -/
def IsActiveRecord (ln : String) : Prop :=
  IsClientRecord ln ∧ (Fields ln)[1]? = some "1"

instance (ln : String) : Decidable (IsActiveRecord ln) :=
  inferInstanceAs (Decidable (IsClientRecord ln ∧ (Fields ln)[1]? = some "1"))

/-- Runner answering every command with the client list of the test
`MultipleClientsOneActive`. -/
def oneActiveRunner : runTmuxCmdFunc := fun _ _ =>
  ⟨"/dev/ttys000 0 1627840930\n/dev/ttys001 1 1627840934\n/dev/ttys002 0 1627840932", none⟩

/-- Runner answering every command with the client list of the
specification's example: `ttyB` active, `ttyC` the most recent. -/
def specClientsRunner : runTmuxCmdFunc := fun _ _ =>
  ⟨"ttyA 0 10\nttyB 1 5\nttyC 0 20", none⟩

/-- The activity timestamp of a client record as the code reads it: the
third field through `strconv.ParseInt`, the error discarded. -/
def actOf (ln : String) : Int := (ParseInt ((Fields ln)[2]?.getD "")).1

/-- The `list-clients` query of `pickActiveClient`. -/
def listClientsCmd : List String :=
  ["list-clients", "-F", "#{client_tty} #{client_active} #{client_activity}"]

/-- Runner answering every command with the client list of the test
`MultipleClientsInactive`. -/
def inactiveRunner : runTmuxCmdFunc := fun _ _ =>
  ⟨"/dev/ttys000 0 1627840930\n/dev/ttys001 0 1627840934\n/dev/ttys002 0 1627840932", none⟩

/-- Runner answering every command with two inactive clients of equal
timestamp around an older one. -/
def tiedRunner : runTmuxCmdFunc := fun _ _ =>
  ⟨"ttyA 0 20\nttyB 0 10\nttyC 0 20", none⟩

/-- The query of the current window of the client on `tty`. -/
def windowCmd (tty : String) : List String :=
  ["display", "-p", "-t", tty, "#{window_id}"]

/-- The query of the panes of window `win` with their edge flags. -/
def listPanesCmd (win : String) : List String :=
  ["list-panes", "-t", win, "-F", "#{pane_id} #{pane_at_left} #{pane_at_right}"]

/-- The targeted select of the edge lander. -/
def selectTargetCmd (target : String) : List String := ["select-pane", "-t", target]

/-- A pane line flagged at the landing edge, in the words of the
specification: exactly the three fields id, left-edge flag, right-edge flag,
with the left-edge flag `1` when hopping east and the right-edge flag `1` when
hopping west. -/
def IsEdgePane (east : Bool) (ln id : String) : Prop :=
  ∃ atL atR, Fields ln = [id, atL, atR] ∧ (if east then atL = "1" else atR = "1")

/-- Runner of the test `TestTmuxSelectEdgePane` (`mockTmuxSequence`): one
active client on `/dev/ttys001`, its window `@1`, panes `%1` leftmost and `%3`
rightmost; any other command is an error. -/
def mockTmuxSequence : runTmuxCmdFunc := fun _ args =>
  match args with
  | "list-clients" :: _ => ⟨"/dev/ttys001 1 1627840934", none⟩
  | "display" :: "-p" :: "-t" :: "/dev/ttys001" :: _ => ⟨"@1", none⟩
  | "list-panes" :: "-t" :: "@1" :: _ => ⟨"%1 1 0\n%2 0 0\n%3 0 1", none⟩
  | "select-pane" :: "-t" :: _ => ⟨"", none⟩
  | _ => ⟨"", some "unexpected command"⟩

/-- Runner of the test `NoActionIfListPanesFails`: `list-panes` fails, the
rest is `mockTmuxSequence`. -/
def listPanesFailsRunner : runTmuxCmdFunc := fun sent args =>
  match args with
  | "list-panes" :: _ => ⟨"", some "list-panes failed"⟩
  | _ => mockTmuxSequence sent args

/-- What the edge lander may add to the commands sent `before`: either no
`select-pane` at all, or a single one, sent last, right after a `list-panes`
query whose reply came without error, was not blank and lists the selected id
as a pane flagged at the landing edge. -/
def LandsAtMostOnce (env : Env) (east : Bool) (before added : List (List String)) : Prop :=
  (∀ c ∈ added, c.head? ≠ some "select-pane") ∨
  ∃ (pre : List (List String)) (win ln id : String),
    added = pre ++ [listPanesCmd win, selectTargetCmd id] ∧
    (∀ c ∈ pre, c.head? ≠ some "select-pane") ∧
    (env.runTmuxCmd (before ++ pre) (listPanesCmd win)).err = none ∧
    TrimSpace (env.runTmuxCmd (before ++ pre) (listPanesCmd win)).out ≠ "" ∧
    ln ∈ SplitLines (env.runTmuxCmd (before ++ pre) (listPanesCmd win)).out ∧
    IsEdgePane east ln id

/-- Accessibility snapshot over the rectangles of `rowRects`: a trusted
process, Alacritty (element `100`) in front with focused window `0` and the
windows `0` to `3`. -/
def rowWorld : AXWorld where
  trusted := true
  frontmostApp := some 100
  focusedApp := none
  runningApp := fun _ => some ⟨some "org.alacritty", some "Alacritty"⟩
  focusedWindowAttr := fun _ => some 0
  windowsAttr := fun _ => some [0, 1, 2, 3]
  position := fun w => (rowRects w).map (fun r => (r.x, r.y))
  size := fun w => (rowRects w).map (fun r => (r.width, r.height))

/-- State before a hop: nothing sent, nothing called. -/
def hopStart : HopState := ⟨⟨[], 0⟩, []⟩

/-! ## Order of the doubles -/

namespace CGFloat

/-- The aligned integer is the exact value scaled by `2 ^ (-k)`. -/
theorem align_cast (m e k : Int) (hk : k ≤ e) :
    ((align m e k : Int) : ℚ) = (m : ℚ) * (2 : ℚ) ^ e / (2 : ℚ) ^ k := by
  unfold align
  have h2 : (2 : ℚ) ≠ 0 := by norm_num
  have hn : (((e - k).toNat : Nat) : Int) = e - k := Int.toNat_of_nonneg (by omega)
  rw [Nat.one_shiftLeft]
  push_cast
  rw [← zpow_natCast, hn, zpow_sub₀ h2]
  ring

/-- Comparison of two finite doubles is comparison of their exact values. -/
theorem lt_fin (m1 e1 m2 e2 : Int) :
    lt (fin m1 e1) (fin m2 e2) = true ↔
      (m1 : ℚ) * (2 : ℚ) ^ e1 < (m2 : ℚ) * (2 : ℚ) ^ e2 := by
  unfold lt
  simp only [decide_eq_true_eq]
  have hpos : (0 : ℚ) < (2 : ℚ) ^ (min e1 e2) := zpow_pos (by norm_num) _
  rw [← Int.cast_lt (R := ℚ), align_cast m1 e1 _ (min_le_left _ _),
    align_cast m2 e2 _ (min_le_right _ _), div_lt_div_iff_of_pos_right hpos]

/-- A comparison that holds has two numbers as operands. -/
theorem lt_not_nan {a b : CGFloat} (h : lt a b = true) :
    isNaN a = false ∧ isNaN b = false := by
  cases a <;> cases b <;> simp_all [lt, isNaN]

/-- Away from not-a-number, `lt` is the order of the extended rationals. -/
theorem lt_iff_key {a b : CGFloat} (ha : isNaN a = false) (hb : isNaN b = false) :
    lt a b = true ↔ key a < key b := by
  cases a with
  | nan => simp [isNaN] at ha
  | inf n1 =>
    cases b with
    | nan => simp [isNaN] at hb
    | inf n2 => cases n1 <;> cases n2 <;> simp [lt, key]
    | fin m2 e2 =>
      cases n1
      · simp only [lt, key, Bool.false_eq_true, false_iff, not_lt]
        exact WithBot.coe_le_coe.mpr le_top
      · simp only [lt, key, true_iff]
        exact WithBot.bot_lt_coe _
  | fin m1 e1 =>
    cases b with
    | nan => simp [isNaN] at hb
    | inf n2 =>
      cases n2
      · simp only [lt, key, Bool.not_false, true_iff]
        exact WithBot.coe_lt_coe.mpr (WithTop.coe_lt_top _)
      · simp only [lt, key, Bool.not_true, Bool.false_eq_true, false_iff, not_lt]
        exact bot_le
    | fin m2 e2 =>
      rw [lt_fin]
      unfold key
      rw [WithBot.coe_lt_coe, WithTop.coe_lt_coe]

/-- Transitivity of `<` on doubles. -/
theorem lt_trans' {a b c : CGFloat} (h1 : lt a b = true) (h2 : lt b c = true) :
    lt a c = true := by
  have ha := (lt_not_nan h1).1
  have hb := (lt_not_nan h1).2
  have hc := (lt_not_nan h2).2
  rw [lt_iff_key ha hc]
  exact ((lt_iff_key ha hb).mp h1).trans ((lt_iff_key hb hc).mp h2)

/-- A double is not below itself. -/
theorem lt_irrefl' (a : CGFloat) : lt a a = false := by
  cases hn : isNaN a
  · cases h : lt a a
    · rfl
    · exact absurd ((lt_iff_key hn hn).mp h) (lt_irrefl _)
  · cases a <;> simp_all [lt, isNaN]

/-- Of two doubles at most one is below the other. -/
theorem lt_asymm' {a b : CGFloat} (h : lt a b = true) : lt b a = false := by
  cases h' : lt b a
  · rfl
  · have := lt_trans' h h'
    rw [lt_irrefl'] at this
    exact absurd this (by simp)

/-- A number not below `b` is above everything below `b`. -/
theorem lt_of_lt_of_not_lt {a b x : CGFloat} (h : lt a b = true) (hx : isNaN x = false)
    (hxb : lt x b = false) : lt a x = true := by
  have ha := (lt_not_nan h).1
  have hb := (lt_not_nan h).2
  rw [lt_iff_key ha hx]
  have h1 := (lt_iff_key ha hb).mp h
  have h2 : ¬ key x < key b := by
    intro hlt
    rw [(lt_iff_key hx hb).mpr hlt] at hxb
    exact absurd hxb (by simp)
  exact lt_of_lt_of_le h1 (not_lt.mp h2)

/-- The comparison `<=` on numbers is the negation of the converse `<`. -/
theorem le_eq_true_iff {a b : CGFloat} :
    le a b = true ↔ isNaN a = false ∧ isNaN b = false ∧ lt b a = false := by
  unfold le
  cases isNaN a <;> cases isNaN b <;> cases lt b a <;> simp

/-- The zero literal of the code. -/
theorem zero_eq : (0 : CGFloat) = fin 0 0 := rfl

/-- A double above zero is its own absolute value. -/
theorem fabs_of_pos {dx : CGFloat} (h : lt 0 dx = true) : fabs dx = dx := by
  rw [zero_eq] at h
  cases dx with
  | nan => simp [lt] at h
  | inf n => cases n <;> simp_all [lt, fabs]
  | fin m e =>
    rw [lt_fin] at h
    have hpos : (0 : ℚ) < (2 : ℚ) ^ e := zpow_pos (by norm_num) _
    have hm : (0 : ℚ) < (m : ℚ) := by
      by_contra hneg
      have : (m : ℚ) * (2 : ℚ) ^ e ≤ 0 :=
        mul_nonpos_of_nonpos_of_nonneg (not_lt.mp hneg) (le_of_lt hpos)
      simp at h
      linarith
    have hm' : 0 < m := by exact_mod_cast hm
    simp [fabs, abs_of_pos hm']

/-- A double below zero has its negation as absolute value. -/
theorem fabs_of_neg {dx : CGFloat} (h : lt dx 0 = true) : fabs dx = neg dx := by
  rw [zero_eq] at h
  cases dx with
  | nan => simp [lt] at h
  | inf n => cases n <;> simp_all [lt, fabs, neg]
  | fin m e =>
    rw [lt_fin] at h
    have hpos : (0 : ℚ) < (2 : ℚ) ^ e := zpow_pos (by norm_num) _
    have hm : (m : ℚ) < 0 := by
      by_contra hneg
      have : 0 ≤ (m : ℚ) * (2 : ℚ) ^ e :=
        mul_nonneg (not_lt.mp hneg) (le_of_lt hpos)
      simp at h
      linarith
    have hm' : m < 0 := by exact_mod_cast hm
    simp [fabs, neg, abs_of_neg hm']

/-- The absolute value of a number is a number. -/
theorem isNaN_fabs (a : CGFloat) : isNaN (fabs a) = isNaN a := by
  cases a <;> rfl

end CGFloat

/-! ## Lemmas on the neighbor scan -/

/-- The distance of an eligible sibling is a number. -/
theorem Eligible.not_nan {getRect : AXUIElementRef → Option CGRect} {east : Bool}
    {meWin : AXUIElementRef} {cx cy h : CGFloat} {w : AXUIElementRef} {d : CGFloat}
    (hE : Eligible getRect east meWin cx cy h w d) : d.isNaN = false := by
  obtain ⟨_, r, _, _, hside, hd⟩ := hE
  rw [hd, CGFloat.isNaN_fabs]
  cases east
  · simp only [Bool.false_eq_true, if_false] at hside
    exact (CGFloat.lt_not_nan hside).1
  · simp only [if_true] at hside
    exact (CGFloat.lt_not_nan hside).2

/-- The distance of an eligible sibling is determined by the window. -/
theorem Eligible.d_unique {getRect : AXUIElementRef → Option CGRect} {east : Bool}
    {meWin : AXUIElementRef} {cx cy h : CGFloat} {w : AXUIElementRef} {d d' : CGFloat}
    (h1 : Eligible getRect east meWin cx cy h w d)
    (h2 : Eligible getRect east meWin cx cy h w d') : d = d' := by
  obtain ⟨_, r, hr, _, _, hd⟩ := h1
  obtain ⟨_, r', hr', _, _, hd'⟩ := h2
  rw [hr] at hr'
  cases hr'
  rw [hd, hd']

/-- One iteration either keeps the state, and then the window is not an
eligible sibling closer than the running best, or it records the window with
its distance, which is then below the running best. -/
theorem scanStep_cases (getRect : AXUIElementRef → Option CGRect) (east : Bool)
    (meWin : AXUIElementRef) (cx cy h : CGFloat) (i : Nat) (w : AXUIElementRef)
    (s : ScanState) :
    (scanStep getRect east meWin cx cy h i w s = s ∧
      ∀ d, Eligible getRect east meWin cx cy h w d → d.lt s.bestDx = false) ∨
    (∃ d, Eligible getRect east meWin cx cy h w d ∧ d.lt s.bestDx = true ∧
      scanStep getRect east meWin cx cy h i w s = ⟨some w, d, (i : Int)⟩) := by
  unfold scanStep
  by_cases hme : w = meWin
  · left
    simp only [hme, if_true, true_and]
    intro d hE
    exact absurd rfl hE.1
  · simp only [hme, if_false]
    cases hr : getRect w with
    | none =>
      left
      refine ⟨rfl, ?_⟩
      intro d hE
      obtain ⟨_, r, hr', _⟩ := hE
      rw [hr] at hr'
      exact absurd hr' (by simp)
    | some r =>
      have hband : (((CGRectGetMidY r).sub cy).fabs.le (h.mul (.fin 3 (-2)))) = inBand cy h r := rfl
      simp only [hband]
      cases hb : inBand cy h r with
      | false =>
        left
        refine ⟨by simp, ?_⟩
        intro d hE
        obtain ⟨_, r', hr', hb', _⟩ := hE
        rw [hr] at hr'
        cases hr'
        rw [hb] at hb'
        exact absurd hb' (by simp)
      | true =>
        cases east with
        | true =>
          cases hpos : CGFloat.lt 0 ((CGRectGetMidX r).sub cx) with
          | false =>
            left
            refine ⟨by simp [hpos], ?_⟩
            intro d hE
            obtain ⟨_, r', hr', _, hside, _⟩ := hE
            rw [hr] at hr'
            cases hr'
            simp only [if_true] at hside
            rw [hpos] at hside
            exact absurd hside (by simp)
          | true =>
            have hfabs := CGFloat.fabs_of_pos hpos
            cases hlt : ((CGRectGetMidX r).sub cx).lt s.bestDx with
            | false =>
              left
              refine ⟨by simp [hpos, hlt], ?_⟩
              intro d hE
              obtain ⟨_, r', hr', _, _, hd⟩ := hE
              rw [hr] at hr'
              cases hr'
              rw [hd, hfabs]
              exact hlt
            | true =>
              right
              refine ⟨(CGRectGetMidX r).sub cx, ⟨hme, r, hr, hb, by simpa using hpos, hfabs.symm⟩,
                hlt, by simp [hpos, hlt]⟩
        | false =>
          cases hneg : ((CGRectGetMidX r).sub cx).lt 0 with
          | false =>
            left
            refine ⟨by simp [hneg], ?_⟩
            intro d hE
            obtain ⟨_, r', hr', _, hside, _⟩ := hE
            rw [hr] at hr'
            cases hr'
            simp only [Bool.false_eq_true, if_false] at hside
            rw [hneg] at hside
            exact absurd hside (by simp)
          | true =>
            have hfabs := CGFloat.fabs_of_neg hneg
            cases hlt : ((CGRectGetMidX r).sub cx).neg.lt s.bestDx with
            | false =>
              left
              refine ⟨by simp [hneg, hlt], ?_⟩
              intro d hE
              obtain ⟨_, r', hr', _, _, hd⟩ := hE
              rw [hr] at hr'
              cases hr'
              rw [hd, hfabs]
              exact hlt
            | true =>
              right
              refine ⟨((CGRectGetMidX r).sub cx).neg,
                ⟨hme, r, hr, hb, by simpa using hneg, hfabs.symm⟩, hlt, by simp [hneg, hlt]⟩

/-- The loop from state `s` either returns `s`, and then no eligible sibling
is closer than `s.bestDx`, or it returns the first closest eligible sibling,
which is closer than `s.bestDx`. -/
theorem scanLoop_cases (getRect : AXUIElementRef → Option CGRect) (east : Bool)
    (meWin : AXUIElementRef) (cx cy h : CGFloat) :
    ∀ (ws : List AXUIElementRef) (i : Nat) (s : ScanState),
    (scanLoop getRect east meWin cx cy h i ws s = s ∧
      ∀ (j : Nat) (w : AXUIElementRef) (d : CGFloat), ws[j]? = some w →
        Eligible getRect east meWin cx cy h w d → d.lt s.bestDx = false) ∨
    (∃ (k : Nat) (b : AXUIElementRef) (db : CGFloat), ws[k]? = some b ∧
      Eligible getRect east meWin cx cy h b db ∧ db.lt s.bestDx = true ∧
      scanLoop getRect east meWin cx cy h i ws s = ⟨some b, db, ((i + k : Nat) : Int)⟩ ∧
      ∀ (j : Nat) (w : AXUIElementRef) (d : CGFloat), ws[j]? = some w →
        Eligible getRect east meWin cx cy h w d →
        d.lt db = false ∧ (j < k → db.lt d = true)) := by
  intro ws
  induction ws with
  | nil =>
    intro i s
    left
    exact ⟨rfl, by intro j w d hj; simp at hj⟩
  | cons w ws ih =>
    intro i s
    rw [scanLoop]
    rcases scanStep_cases getRect east meWin cx cy h i w s with ⟨hs, hge⟩ | ⟨d0, hE0, hlt0, hs⟩
    · rw [hs]
      rcases ih (i + 1) s with ⟨hl, hall⟩ | ⟨k, b, db, hk, hEb, hltb, hl, hmin⟩
      · left
        refine ⟨hl, ?_⟩
        intro j w' d hj hE
        cases j with
        | zero =>
          simp only [List.getElem?_cons_zero, Option.some.injEq] at hj
          subst hj
          exact hge d hE
        | succ j =>
          simp only [List.getElem?_cons_succ] at hj
          exact hall j w' d hj hE
      · right
        refine ⟨k + 1, b, db, by simpa using hk, hEb, hltb, ?_, ?_⟩
        · rw [hl]
          congr 2
          omega
        · intro j w' d hj hE
          cases j with
          | zero =>
            simp only [List.getElem?_cons_zero, Option.some.injEq] at hj
            subst hj
            have h1 := CGFloat.lt_of_lt_of_not_lt hltb hE.not_nan (hge d hE)
            exact ⟨CGFloat.lt_asymm' h1, fun _ => h1⟩
          | succ j =>
            simp only [List.getElem?_cons_succ] at hj
            obtain ⟨h1, h2⟩ := hmin j w' d hj hE
            exact ⟨h1, fun hjk => h2 (by omega)⟩
    · rw [hs]
      rcases ih (i + 1) ⟨some w, d0, (i : Int)⟩ with
        ⟨hl, hall⟩ | ⟨k, b, db, hk, hEb, hltb, hl, hmin⟩
      · right
        refine ⟨0, w, d0, by simp, hE0, hlt0, by rw [hl]; rfl, ?_⟩
        intro j w' d hj hE
        cases j with
        | zero =>
          simp only [List.getElem?_cons_zero, Option.some.injEq] at hj
          subst hj
          rw [hE.d_unique hE0]
          exact ⟨CGFloat.lt_irrefl' _, fun hlt => absurd hlt (by omega)⟩
        | succ j =>
          simp only [List.getElem?_cons_succ] at hj
          exact ⟨hall j w' d hj hE, fun hlt => absurd hlt (by omega)⟩
      · right
        have hltb' : db.lt d0 = true := hltb
        refine ⟨k + 1, b, db, by simpa using hk, hEb, CGFloat.lt_trans' hltb' hlt0, ?_, ?_⟩
        · rw [hl]
          congr 2
          omega
        · intro j w' d hj hE
          cases j with
          | zero =>
            simp only [List.getElem?_cons_zero, Option.some.injEq] at hj
            subst hj
            rw [hE.d_unique hE0]
            exact ⟨CGFloat.lt_asymm' hltb', fun _ => hltb'⟩
          | succ j =>
            simp only [List.getElem?_cons_succ] at hj
            obtain ⟨h1, h2⟩ := hmin j w' d hj hE
            exact ⟨h1, fun hjk => h2 (by omega)⟩

/-! ## C1: the scan chooses the first nearest eligible sibling -/

/-- C1, as stated, fails in two ways. Rounding: with the current window
centred at `x = -1` and in-band siblings centred at `2 ^ 53` (window `1`) and
`2 ^ 53 - 1` (window `2`), the exact offsets are `2 ^ 53 + 1` and `2 ^ 53`,
the code computes `2 ^ 53` for both and keeps the first listed, window `1`,
which is not the sibling of smallest `|dx|`. Sentinel: the scan starts from
`bestDx = CGFLOAT_MAX` and compares with `<`, so an in-band sibling lying east
at exactly `dx = CGFLOAT_MAX`, the only sibling, is not chosen. -/
theorem neighborScan_counterexample :
    (inBand (CGRectGetMidY ⟨-51, 0, 100, 100⟩) (CGRectGetHeight ⟨-51, 0, 100, 100⟩)
        ⟨9007199254740942, 0, 100, 100⟩ = true ∧
      inBand (CGRectGetMidY ⟨-51, 0, 100, 100⟩) (CGRectGetHeight ⟨-51, 0, 100, 100⟩)
        ⟨9007199254740941, 0, 100, 100⟩ = true ∧
      (CGRectGetMidX ⟨9007199254740942, 0, 100, 100⟩).toRat -
        (CGRectGetMidX ⟨-51, 0, 100, 100⟩).toRat = 2 ^ 53 + 1 ∧
      (CGRectGetMidX ⟨9007199254740941, 0, 100, 100⟩).toRat -
        (CGRectGetMidX ⟨-51, 0, 100, 100⟩).toRat = 2 ^ 53 ∧
      (neighborScan roundingRects true 0 ⟨-51, 0, 100, 100⟩ [0, 1, 2]).best = some 1) ∧
    (inBand (CGRectGetMidY ⟨-50, 0, 100, 100⟩) (CGRectGetHeight ⟨-50, 0, 100, 100⟩)
        ⟨CGFLOAT_MAX, 0, 0, 100⟩ = true ∧
      (CGRectGetMidX ⟨CGFLOAT_MAX, 0, 0, 100⟩).sub (CGRectGetMidX ⟨-50, 0, 100, 100⟩) =
        CGFLOAT_MAX ∧
      CGFloat.lt 0 CGFLOAT_MAX = true ∧
      (neighborScan sentinelRects true 0 ⟨-50, 0, 100, 100⟩ [0, 1]).best = none) := by
  have h1 : CGRectGetMidX ⟨9007199254740942, 0, 100, 100⟩ = .fin 4503599627370496 1 := by
    decide
  have h2 : CGRectGetMidX ⟨9007199254740941, 0, 100, 100⟩ = .fin 9007199254740991 0 := by
    decide
  have h0 : CGRectGetMidX ⟨-51, 0, 100, 100⟩ = .fin (-2) (-1) := by decide
  refine ⟨⟨by decide, by decide, ?_, ?_, by decide⟩, ?_⟩
  · rw [h1, h0]
    norm_num [CGFloat.toRat]
  · rw [h2, h0]
    norm_num [CGFloat.toRat]
  · set_option maxRecDepth 100000 in
    exact ⟨by decide, by decide, by decide, by decide⟩

/-- C1 (amended): for every current window rect, window list and direction,
the window chosen by the neighbor scan is a sibling that is not the current
window, has a readable rect, passes the band test and whose mid-x offset
`dx = midX - cx`, as the code computes it in doubles, lies on the requested
side with `|dx| < CGFLOAT_MAX`; no such sibling has a smaller computed `|dx|`,
every such sibling listed before it has a strictly greater one (so the first
of several nearest ones is chosen), and the scan chooses nothing exactly when
no such sibling has `|dx| < CGFLOAT_MAX`. -/
theorem neighborScan_nearest_first (getRect : AXUIElementRef → Option CGRect)
    (east : Bool) (meWin : AXUIElementRef) (meR : CGRect)
    (wins : List AXUIElementRef) :
    (∀ b, (neighborScan getRect east meWin meR wins).best = some b →
      ∃ (k : Nat) (db : CGFloat),
        (neighborScan getRect east meWin meR wins).bestIdx = (k : Int) ∧
        wins[k]? = some b ∧
        Eligible getRect east meWin (CGRectGetMidX meR) (CGRectGetMidY meR)
          (CGRectGetHeight meR) b db ∧
        db.lt CGFLOAT_MAX = true ∧
        (neighborScan getRect east meWin meR wins).bestDx = db ∧
        ∀ (j : Nat) (w : AXUIElementRef) (d : CGFloat), wins[j]? = some w →
          Eligible getRect east meWin (CGRectGetMidX meR) (CGRectGetMidY meR)
            (CGRectGetHeight meR) w d →
          db.le d = true ∧ (j < k → db.lt d = true)) ∧
    ((neighborScan getRect east meWin meR wins).best = none ↔
      ∀ (j : Nat) (w : AXUIElementRef) (d : CGFloat), wins[j]? = some w →
        Eligible getRect east meWin (CGRectGetMidX meR) (CGRectGetMidY meR)
          (CGRectGetHeight meR) w d →
        d.lt CGFLOAT_MAX = false) := by
  unfold neighborScan
  rcases scanLoop_cases getRect east meWin (CGRectGetMidX meR) (CGRectGetMidY meR)
      (CGRectGetHeight meR) wins 0 scanInit with
    ⟨hl, hall⟩ | ⟨k, b, db, hk, hEb, hltb, hl, hmin⟩
  · rw [hl]
    refine ⟨?_, ?_⟩
    · intro b hb
      simp [scanInit] at hb
    · exact ⟨fun _ => hall, fun _ => rfl⟩
  · rw [hl]
    refine ⟨?_, ?_⟩
    · intro b' hb'
      simp only [Option.some.injEq] at hb'
      subst hb'
      refine ⟨k, db, by simp, hk, hEb, hltb, rfl, ?_⟩
      intro j w d hj hE
      obtain ⟨h1, h2⟩ := hmin j w d hj hE
      exact ⟨CGFloat.le_eq_true_iff.mpr ⟨hEb.not_nan, hE.not_nan, h1⟩, h2⟩
    · constructor
      · intro hnone
        simp at hnone
      · intro hall
        have h1 : db.lt scanInit.bestDx = true := hltb
        have h2 : db.lt CGFLOAT_MAX = false := hall k b db hk hEb
        rw [show scanInit.bestDx = CGFLOAT_MAX from rfl, h2] at h1
        exact absurd h1 (by simp)

/-- The amended C1 at the row of windows `+50, +10, -30`: the east scan
chooses window `2`, and the theorem then gives its index, its eligibility and
its minimality. -/
theorem neighborScan_nearest_first_witness :
    (neighborScan rowRects true 0 ⟨0, 0, 100, 100⟩ [0, 1, 2, 3]).best = some 2 ∧
    ∃ (k : Nat) (db : CGFloat),
      (neighborScan rowRects true 0 ⟨0, 0, 100, 100⟩ [0, 1, 2, 3]).bestIdx = (k : Int) ∧
      [0, 1, 2, 3][k]? = some 2 ∧
      Eligible rowRects true 0 (CGRectGetMidX ⟨0, 0, 100, 100⟩)
        (CGRectGetMidY ⟨0, 0, 100, 100⟩) (CGRectGetHeight ⟨0, 0, 100, 100⟩) 2 db ∧
      db.lt CGFLOAT_MAX = true ∧
      (neighborScan rowRects true 0 ⟨0, 0, 100, 100⟩ [0, 1, 2, 3]).bestDx = db ∧
      ∀ (j : Nat) (w : AXUIElementRef) (d : CGFloat), [0, 1, 2, 3][j]? = some w →
        Eligible rowRects true 0 (CGRectGetMidX ⟨0, 0, 100, 100⟩)
          (CGRectGetMidY ⟨0, 0, 100, 100⟩) (CGRectGetHeight ⟨0, 0, 100, 100⟩) w d →
        db.le d = true ∧ (j < k → db.lt d = true) :=
  have hbest : (neighborScan rowRects true 0 ⟨0, 0, 100, 100⟩ [0, 1, 2, 3]).best = some 2 := by
    decide
  ⟨hbest, (neighborScan_nearest_first rowRects true 0 ⟨0, 0, 100, 100⟩ [0, 1, 2, 3]).1 2 hbest⟩

/-- The example of C1: with siblings at `dx = +50, +10, -30`, all in band, the
east scan gives the `+10` sibling and the west scan the `-30` sibling; of two
siblings at `+10` the one listed first is chosen. -/
theorem neighborScan_row_example :
    (neighborScan rowRects true 0 ⟨0, 0, 100, 100⟩ [0, 1, 2, 3]).best = some 2 ∧
    (neighborScan rowRects false 0 ⟨0, 0, 100, 100⟩ [0, 1, 2, 3]).best = some 3 ∧
    (neighborScan rowRects true 0 ⟨0, 0, 100, 100⟩ [1, 4, 2, 3]).best = some 4 ∧
    (neighborScan rowRects true 0 ⟨0, 0, 100, 100⟩ [1, 2, 4, 3]).best = some 2 := by
  decide

/-! ## C2: the band test -/

/-- C2, as stated, fails by rounding: with the current window of height
`H = 900.1` (the nearest double) centred at `(50, 0)` and the only other
window centred `10` to the east at the vertical offset `d`, the double nearest
`675.075`, the exact numbers satisfy `d > 0.75 * H`, but the double product
`h * 0.75` rounds up to `d`, the band test passes and the east scan chooses
the window. -/
theorem bandTest_rounding_counterexample :
    CGRectGetMidY ⟨0, .fin (-7917363329289421) (-44), 100, .fin 7917363329289421 (-43)⟩ =
      .fin 0 0 ∧
    (CGRectGetMidY ⟨10, .fin 2749108922928333 (-42), 100, 100⟩).toRat =
      2969011248483533 / 2 ^ 42 ∧
    (CGRectGetHeight ⟨0, .fin (-7917363329289421) (-44), 100,
      .fin 7917363329289421 (-43)⟩).toRat = 7917363329289421 / 2 ^ 43 ∧
    (0.75 : ℚ) * (7917363329289421 / 2 ^ 43) < 2969011248483533 / 2 ^ 42 ∧
    (neighborScan tallRects true 0
      ⟨0, .fin (-7917363329289421) (-44), 100, .fin 7917363329289421 (-43)⟩ [0, 1]).best =
      some 1 := by
  have h1 : CGRectGetMidY ⟨10, .fin 2749108922928333 (-42), 100, 100⟩ =
      .fin 2969011248483533 (-42) := by decide
  have h2 : CGRectGetHeight ⟨0, .fin (-7917363329289421) (-44), 100,
      .fin 7917363329289421 (-43)⟩ = .fin 7917363329289421 (-43) := by decide
  refine ⟨by decide, ?_, ?_, by norm_num, by decide⟩
  · rw [h1]
    norm_num [CGFloat.toRat]
  · rw [h2]
    norm_num [CGFloat.toRat]

/-- C2 (amended): the neighbor scan never chooses a sibling whose vertical
offset `dy = |midY - cy|`, as the code computes it in doubles, exceeds the
double product `h * 0.75`, and the bound is inclusive: for a window list whose
only other window `w` lies east with a computed `dx` below `CGFLOAT_MAX`
(say centred `10` to the east), the east scan chooses `w` when the computed
`dy` is at most the computed `h * 0.75` and chooses nothing otherwise. -/
theorem neighborScan_band (getRect : AXUIElementRef → Option CGRect)
    (meWin : AXUIElementRef) (meR : CGRect) (wins : List AXUIElementRef) :
    (∀ (east : Bool) (b : AXUIElementRef),
      (neighborScan getRect east meWin meR wins).best = some b →
      ∃ r, getRect b = some r ∧
        ((CGRectGetMidY r).sub (CGRectGetMidY meR)).fabs.le
          ((CGRectGetHeight meR).mul (.fin 3 (-2))) = true) ∧
    (∀ (w : AXUIElementRef) (r : CGRect),
      w ≠ meWin → w ∈ wins → (∀ v ∈ wins, v = meWin ∨ v = w) →
      getRect w = some r →
      CGFloat.lt 0 ((CGRectGetMidX r).sub (CGRectGetMidX meR)) = true →
      ((CGRectGetMidX r).sub (CGRectGetMidX meR)).lt CGFLOAT_MAX = true →
      (((CGRectGetMidY r).sub (CGRectGetMidY meR)).fabs.le
          ((CGRectGetHeight meR).mul (.fin 3 (-2))) = true →
        (neighborScan getRect true meWin meR wins).best = some w) ∧
      (((CGRectGetMidY r).sub (CGRectGetMidY meR)).fabs.le
          ((CGRectGetHeight meR).mul (.fin 3 (-2))) = false →
        (neighborScan getRect true meWin meR wins).best = none)) := by
  refine ⟨?_, ?_⟩
  · intro east b hb
    unfold neighborScan at hb
    rcases scanLoop_cases getRect east meWin (CGRectGetMidX meR) (CGRectGetMidY meR)
        (CGRectGetHeight meR) wins 0 scanInit with
      ⟨hl, _⟩ | ⟨k, b', db, _, hEb, _, hl, _⟩
    · rw [hl] at hb
      simp [scanInit] at hb
    · rw [hl] at hb
      simp only [Option.some.injEq] at hb
      subst hb
      obtain ⟨_, r, hr, hband, _⟩ := hEb
      exact ⟨r, hr, hband⟩
  · intro w r hne hmem honly hr hpos hmax
    unfold neighborScan
    rcases scanLoop_cases getRect true meWin (CGRectGetMidX meR) (CGRectGetMidY meR)
        (CGRectGetHeight meR) wins 0 scanInit with
      ⟨hl, hall⟩ | ⟨k, b, db, hk, hEb, _, hl, _⟩
    · rw [hl]
      refine ⟨?_, fun _ => rfl⟩
      intro hd
      obtain ⟨j, hj⟩ := List.mem_iff_getElem?.mp hmem
      have hE : Eligible getRect true meWin (CGRectGetMidX meR) (CGRectGetMidY meR)
          (CGRectGetHeight meR) w ((CGRectGetMidX r).sub (CGRectGetMidX meR)).fabs :=
        ⟨hne, r, hr, hd, by simpa using hpos, rfl⟩
      have h1 := hall j w _ hj hE
      rw [CGFloat.fabs_of_pos hpos, show scanInit.bestDx = CGFLOAT_MAX from rfl, hmax] at h1
      exact absurd h1 (by simp)
    · rw [hl]
      have hbw : b = w := by
        rcases honly b (List.getElem?_mem hk) with h | h
        · exact absurd h hEb.1
        · exact h
      subst hbw
      refine ⟨fun _ => rfl, ?_⟩
      intro hd
      obtain ⟨_, r', hr', hband, _⟩ := hEb
      rw [hr] at hr'
      cases hr'
      have hband' : ((CGRectGetMidY r).sub (CGRectGetMidY meR)).fabs.le
          ((CGRectGetHeight meR).mul (.fin 3 (-2))) = true := hband
      rw [hd] at hband'
      exact absurd hband' (by simp)

/-- The example of C2 on the concrete windows: with `H = 100`, a sibling `10`
to the east at the vertical offset `74.99` (the nearest double) is chosen and
one at `75.01` is not. -/
theorem neighborScan_band_witness :
    (neighborScan bandRects true 0 ⟨0, 0, 100, 100⟩ [0, 2]).best = some 2 ∧
    (neighborScan bandRects true 0 ⟨0, 0, 100, 100⟩ [0, 3]).best = none :=
  ⟨((neighborScan_band bandRects 0 ⟨0, 0, 100, 100⟩ [0, 2]).2 2
      ⟨10, .fin 5276952125883023 (-46), 100, 100⟩
      (by decide) (by simp) (by simp) rfl (by decide) (by decide)).1 (by decide),
   ((neighborScan_band bandRects 0 ⟨0, 0, 100, 100⟩ [0, 3]).2 3
      ⟨10, .fin 5278359500766577 (-46), 100, 100⟩
      (by decide) (by simp) (by simp) rfl (by decide) (by decide)).2 (by decide)⟩

/-! ## C3: the current window is never chosen -/

/-- C3: for every window list and direction the window chosen by the neighbor
scan is never the current window, and when no entry other than the current
window's own handle is eligible the scan chooses nothing. -/
theorem neighborScan_never_self (getRect : AXUIElementRef → Option CGRect)
    (east : Bool) (meWin : AXUIElementRef) (meR : CGRect)
    (wins : List AXUIElementRef) :
    (neighborScan getRect east meWin meR wins).best ≠ some meWin ∧
    ((∀ w ∈ wins, w ≠ meWin → ∀ d,
        ¬ Eligible getRect east meWin (CGRectGetMidX meR) (CGRectGetMidY meR)
          (CGRectGetHeight meR) w d) →
      (neighborScan getRect east meWin meR wins).best = none) := by
  unfold neighborScan
  rcases scanLoop_cases getRect east meWin (CGRectGetMidX meR) (CGRectGetMidY meR)
      (CGRectGetHeight meR) wins 0 scanInit with
    ⟨hl, _⟩ | ⟨k, b, db, hk, hEb, _, hl, _⟩
  · rw [hl]
    exact ⟨by simp [scanInit], fun _ => rfl⟩
  · rw [hl]
    refine ⟨?_, ?_⟩
    · intro h
      simp only [Option.some.injEq] at h
      exact hEb.1 h
    · intro hnone
      exact absurd hEb (hnone b (List.getElem?_mem hk) hEb.1 db)

/-- The example of C3: a list holding only the current window's own handle,
twice, gives no neighbor. -/
theorem neighborScan_never_self_witness :
    (neighborScan bandRects true 0 ⟨0, 0, 100, 100⟩ [0, 0]).best = none :=
  (neighborScan_never_self bandRects true 0 ⟨0, 0, 100, 100⟩ [0, 0]).2
    (by intro w hw hne; simp at hw; exact absurd hw hne)

/-! ## C4 and C5: the orchestrator around the scan -/

/-- The scan chooses nothing when no sibling passes the band test. -/
theorem neighborScan_none_of_no_band (getRect : AXUIElementRef → Option CGRect)
    (east : Bool) (meWin : AXUIElementRef) (meR : CGRect)
    (wins : List AXUIElementRef)
    (h : ∀ w ∈ wins, w ≠ meWin → ∀ r, getRect w = some r →
      inBand (CGRectGetMidY meR) (CGRectGetHeight meR) r = false) :
    (neighborScan getRect east meWin meR wins).best = none := by
  unfold neighborScan
  rcases scanLoop_cases getRect east meWin (CGRectGetMidX meR) (CGRectGetMidY meR)
      (CGRectGetHeight meR) wins 0 scanInit with
    ⟨hl, _⟩ | ⟨k, b, db, hk, hEb, _, hl, _⟩
  · rw [hl]; rfl
  · obtain ⟨hne, r, hr, hband, _⟩ := hEb
    rw [h b (List.getElem?_mem hk) hne r hr] at hband
    exact absurd hband (by simp)

/-- C4: when the pane move did not happen and the window search (permission
granted, Alacritty in front, focused window and its rect readable, window list
readable) runs over an empty window list or over a list in which no sibling
passes the band test as the code computes it (`fabs(midY - cy) <= h * 0.75` in
doubles), `alacritty_focus_neighbor_dbg` returns 5, the
accessibility calls it adds contain neither a focus call nor the edge-landing
call, and the Go side is left as the pane-move attempt left it. -/
theorem no_neighbor_returns_5 (env : Env) (ax : AXWorld)
    (east debug do_edge edge_steps wait_ms : Int) (st : HopState)
    (axApp meWin : AXUIElementRef) (meR : CGRect) (wins : List AXUIElementRef)
    (hmove : (tmuxTryPaneMove env (decide (east ≠ 0)) st.go).1 = false)
    (htrust : ax.trusted = true)
    (happ : (ax.frontmostApp <|> ax.focusedApp) = some axApp)
    (hala : app_is_alacritty ax axApp = true)
    (hwin : app_focused_window ax axApp = some meWin)
    (hrect : ax_get_rect ax meWin = some meR)
    (hwins : app_windows_retained ax axApp = some wins)
    (hnone : wins = [] ∨ ∀ w ∈ wins, w ≠ meWin → ∀ r, ax_get_rect ax w = some r →
      inBand (CGRectGetMidY meR) (CGRectGetHeight meR) r = false) :
    (alacritty_focus_neighbor_dbg env ax east debug do_edge edge_steps wait_ms st).1 = 5 ∧
    (alacritty_focus_neighbor_dbg env ax east debug do_edge edge_steps wait_ms st).2.go =
      (tmuxTryPaneMove env (decide (east ≠ 0)) st.go).2 ∧
    ∃ added,
      (alacritty_focus_neighbor_dbg env ax east debug do_edge edge_steps wait_ms st).2.ax =
        st.ax ++ added ∧
      ∀ c ∈ added, (∀ a w, c ≠ AXCall.focusWindow a w) ∧
        ∀ e m, c ≠ AXCall.selectEdge e m := by
  have hscan : (neighborScan (ax_get_rect ax) (decide (east ≠ 0)) meWin meR wins).best = none := by
    apply neighborScan_none_of_no_band
    rcases hnone with h | h
    · subst h
      intro w hw
      simp at hw
    · exact h
  have hgo : goTmuxTryPaneMove env east st.go =
      (0, (tmuxTryPaneMove env (decide (east ≠ 0)) st.go).2) := by
    unfold goTmuxTryPaneMove
    rcases hres : tmuxTryPaneMove env (decide (east ≠ 0)) st.go with ⟨m, g⟩
    rw [hres] at hmove
    simp only at hmove
    subst hmove
    rfl
  have htr : ensure_trusted_i ax ≠ 0 := by simp [ensure_trusted_i, htrust]
  unfold alacritty_focus_neighbor_dbg
  simp only [hgo, ne_eq, not_true_eq_false, if_false, htr, happ, hala, Bool.not_true,
    Bool.false_eq_true, hwin, hrect, hwins, hscan, true_and]
  refine ⟨[AXCall.ensureTrusted] ++ [AXCall.frontmostApp] ++
      (if ax.frontmostApp.isNone then [AXCall.focusedApp] else []) ++
      [AXCall.isAlacritty axApp] ++ [AXCall.focusedWindow axApp] ++
      [AXCall.getRect meWin] ++ [AXCall.windows axApp] ++ scanReads meWin wins,
    by simp only [List.append_assoc], ?_⟩
  intro c hc
  refine ⟨?_, ?_⟩
  · intro a w hcw
    subst hcw
    split_ifs at hc <;> simp [scanReads] at hc
  · intro e m hcw
    subst hcw
    split_ifs at hc <;> simp [scanReads] at hc

/-- The example of C4: outside tmux, with the only sibling `100` above the
band, the hop east returns 5. -/
theorem no_neighbor_returns_5_witness :
    (alacritty_focus_neighbor_dbg noTmuxEnv bandWorld 1 0 1 5 0 hopStart).1 = 5 :=
  (no_neighbor_returns_5 noTmuxEnv bandWorld 1 0 1 5 0 hopStart 100 0 ⟨0, 0, 100, 100⟩
    [0, 1] (by decide) rfl rfl (by decide) rfl rfl rfl
    (Or.inr (by
      intro w hw hne r hr
      have hw1 : w = 1 := by
        simp only [List.mem_cons, List.mem_singleton, List.not_mem_nil, or_false] at hw
        rcases hw with h | h
        · exact absurd h hne
        · exact h
      subst hw1
      have hr1 : ax_get_rect bandWorld 1 = some ⟨10, -100, 100, 100⟩ := rfl
      rw [hr1] at hr
      cases hr
      decide))).1


/-- C5: whenever the pane mover reports success, `alacritty_focus_neighbor_dbg`
returns 0, adds no accessibility call at all (no permission check, no
front-app lookup, no window enumeration or geometry read, no focus call, no
edge-landing call) and leaves the Go side as the pane mover left it. -/
theorem pane_move_success_returns_0 (env : Env) (ax : AXWorld)
    (east debug do_edge edge_steps wait_ms : Int) (st : HopState)
    (hmove : (tmuxTryPaneMove env (decide (east ≠ 0)) st.go).1 = true) :
    alacritty_focus_neighbor_dbg env ax east debug do_edge edge_steps wait_ms st =
      (0, ⟨(tmuxTryPaneMove env (decide (east ≠ 0)) st.go).2, st.ax⟩) := by
  have hgo : goTmuxTryPaneMove env east st.go =
      (1, (tmuxTryPaneMove env (decide (east ≠ 0)) st.go).2) := by
    unfold goTmuxTryPaneMove
    rcases hres : tmuxTryPaneMove env (decide (east ≠ 0)) st.go with ⟨m, g⟩
    rw [hres] at hmove
    simp only at hmove
    subst hmove
    rfl
  unfold alacritty_focus_neighbor_dbg
  simp only [hgo, ne_eq, one_ne_zero, not_false_eq_true, if_true]

/-- The example of C5: with the runner of the test `Success` the hop east
returns 0 after the four commands of the pane move and nothing else. -/
theorem pane_move_success_returns_0_witness :
    alacritty_focus_neighbor_dbg successEnv bandWorld 1 0 1 5 0 hopStart =
      (0, ⟨(tmuxTryPaneMove successEnv (decide ((1 : Int) ≠ 0)) hopStart.go).2,
        hopStart.ax⟩) :=
  pane_move_success_returns_0 successEnv bandWorld 1 0 1 5 0 hopStart (by decide)

/-! ## C6 to C9: `tmuxTryPaneMove` -/

/-- The function as a chain of the four runner calls, with the commands named
as in `paneIdCmd`, `edgeCmd`, `selectCmd`. -/
theorem tmuxTryPaneMove_eq (env : Env) (east : Bool) (st : GoState) :
    tmuxTryPaneMove env east st =
      if env.TMUX = "" then (false, st)
      else if (env.runTmuxCmd st.cmds paneIdCmd).err.isSome ∨
          TrimSpace (env.runTmuxCmd st.cmds paneIdCmd).out = "" then
        (false, { st with cmds := st.cmds ++ [paneIdCmd] })
      else if (env.runTmuxCmd (st.cmds ++ [paneIdCmd]) (edgeCmd east)).err.isSome ∨
          TrimSpace (env.runTmuxCmd (st.cmds ++ [paneIdCmd]) (edgeCmd east)).out = "1" then
        (false, { st with cmds := st.cmds ++ [paneIdCmd, edgeCmd east] })
      else
        (decide (¬ (TrimSpace (env.runTmuxCmd
              (st.cmds ++ [paneIdCmd, edgeCmd east, selectCmd east]) paneIdCmd).out = "" ∨
            (env.runTmuxCmd (st.cmds ++ [paneIdCmd, edgeCmd east, selectCmd east])
              paneIdCmd).out = (env.runTmuxCmd st.cmds paneIdCmd).out)),
          { st with cmds := st.cmds ++
              [paneIdCmd, edgeCmd east, selectCmd east, paneIdCmd] }) := by
  unfold tmuxTryPaneMove callTmux
  cases east <;>
    simp only [paneIdCmd, edgeCmd, selectCmd, Bool.not_true, Bool.not_false,
      Bool.false_eq_true, if_true, if_false, Bool.or_eq_true, decide_eq_true_eq,
      List.append_assoc, List.singleton_append, List.cons_append, List.nil_append] <;>
    split_ifs <;> simp_all

/-- C6, as stated, fails for the re-query: the code discards the error of the
second `display -p #{pane_id}` and looks only at the output, so a runner whose
re-query returns an error together with a new pane id makes
`tmuxTryPaneMove` return true. -/
theorem tmuxTryPaneMove_requery_error_counterexample :
    requeryErrEnv.TMUX ≠ "" ∧
    (requeryErrEnv.runTmuxCmd [paneIdCmd, edgeCmd true, selectCmd true] paneIdCmd).err =
      some "exit status 1" ∧
    (tmuxTryPaneMove requeryErrEnv true ⟨[], 0⟩).1 = true := by
  decide

/-- C6 (amended): for every command runner and either direction, if the
active-pane id query returns an error, or the edge-flag query returns an
error, or the re-query of the active-pane id after the move returns no pane id
(blank output, which is what the default runner returns with every error),
then `tmuxTryPaneMove` returns false; being a total function to a boolean it
raises and propagates nothing. -/
theorem tmuxTryPaneMove_query_error (env : Env) (east : Bool) (st : GoState) :
    ((env.runTmuxCmd st.cmds paneIdCmd).err ≠ none →
      (tmuxTryPaneMove env east st).1 = false) ∧
    ((env.runTmuxCmd (st.cmds ++ [paneIdCmd]) (edgeCmd east)).err ≠ none →
      (tmuxTryPaneMove env east st).1 = false) ∧
    (TrimSpace (env.runTmuxCmd (st.cmds ++ [paneIdCmd, edgeCmd east, selectCmd east])
        paneIdCmd).out = "" →
      (tmuxTryPaneMove env east st).1 = false) ∧
    (∀ raw e, (defaultRunTmuxCmd raw (some e)).out = "" ∧
      (defaultRunTmuxCmd raw (some e)).err ≠ none) := by
  rw [tmuxTryPaneMove_eq]
  refine ⟨?_, ?_, ?_, ?_⟩
  · intro h
    have h' : (env.runTmuxCmd st.cmds paneIdCmd).err.isSome = true :=
      Option.isSome_iff_ne_none.mpr h
    split_ifs <;> simp_all
  · intro h
    have h' : (env.runTmuxCmd (st.cmds ++ [paneIdCmd]) (edgeCmd east)).err.isSome = true :=
      Option.isSome_iff_ne_none.mpr h
    split_ifs <;> simp_all
  · intro h
    split_ifs <;> simp_all
  · intro raw e
    simp [defaultRunTmuxCmd]

/-- The example of C6: inside a session, a runner that fails every command
gives false. -/
theorem tmuxTryPaneMove_query_error_witness :
    failingEnv.TMUX ≠ "" ∧ (tmuxTryPaneMove failingEnv true ⟨[], 0⟩).1 = false :=
  ⟨by decide, (tmuxTryPaneMove_query_error failingEnv true ⟨[], 0⟩).1 (by decide)⟩

/-- C7: with a session present and the active-pane id obtained, if the edge
flag queried for the requested direction (`pane_at_right` for east,
`pane_at_left` for west) reads 1, `tmuxTryPaneMove` returns false and the
commands it sent are the two queries only, none of them a `select-pane`. -/
theorem tmuxTryPaneMove_at_edge (env : Env) (east : Bool) (st : GoState)
    (hsession : env.TMUX ≠ "")
    (hid_ok : (env.runTmuxCmd st.cmds paneIdCmd).err = none)
    (hid : TrimSpace (env.runTmuxCmd st.cmds paneIdCmd).out ≠ "")
    (hedge : TrimSpace (env.runTmuxCmd (st.cmds ++ [paneIdCmd]) (edgeCmd east)).out = "1") :
    tmuxTryPaneMove env east st =
      (false, { st with cmds := st.cmds ++ [paneIdCmd, edgeCmd east] }) ∧
    ∀ c ∈ [paneIdCmd, edgeCmd east], c.head? ≠ some "select-pane" := by
  refine ⟨?_, ?_⟩
  · rw [tmuxTryPaneMove_eq]
    simp [hsession, hid_ok, hid, hedge]
  · intro c hc
    simp only [List.mem_cons, List.mem_singleton, List.not_mem_nil, or_false] at hc
    rcases hc with h | h <;> subst h
    · decide
    · simp [edgeCmd]

/-- The example of C7, the test `AtEdge`: at the right edge the move east
returns false after the two queries. -/
theorem tmuxTryPaneMove_at_edge_witness :
    tmuxTryPaneMove atEdgeEnv true ⟨[], 0⟩ =
      (false, ⟨[paneIdCmd, edgeCmd true], 0⟩) :=
  (tmuxTryPaneMove_at_edge atEdgeEnv true ⟨[], 0⟩ (by decide) (by decide) (by decide)
    (by decide)).1

/-- C8: with a session present, the active-pane id obtained and the pane not
at the requested edge, `tmuxTryPaneMove` sends the two queries, the
directional select (`select-pane -R` for east, `-L` for west, no `-t`) and the
re-query, in this order, and returns true exactly when the re-queried id
differs from the id read before the move and is not blank. -/
theorem tmuxTryPaneMove_moved_iff (env : Env) (east : Bool) (st : GoState)
    (hsession : env.TMUX ≠ "")
    (hid_ok : (env.runTmuxCmd st.cmds paneIdCmd).err = none)
    (hid : TrimSpace (env.runTmuxCmd st.cmds paneIdCmd).out ≠ "")
    (hedge_ok : (env.runTmuxCmd (st.cmds ++ [paneIdCmd]) (edgeCmd east)).err = none)
    (hedge : TrimSpace (env.runTmuxCmd (st.cmds ++ [paneIdCmd]) (edgeCmd east)).out ≠ "1") :
    (tmuxTryPaneMove env east st).2 =
      { st with cmds := st.cmds ++ [paneIdCmd, edgeCmd east, selectCmd east, paneIdCmd] } ∧
    selectCmd east = ["select-pane", if east then "-R" else "-L"] ∧
    ((tmuxTryPaneMove env east st).1 = true ↔
      ((env.runTmuxCmd (st.cmds ++ [paneIdCmd, edgeCmd east, selectCmd east]) paneIdCmd).out ≠
          (env.runTmuxCmd st.cmds paneIdCmd).out ∧
        TrimSpace (env.runTmuxCmd (st.cmds ++ [paneIdCmd, edgeCmd east, selectCmd east])
          paneIdCmd).out ≠ "")) := by
  rw [tmuxTryPaneMove_eq]
  simp only [hsession, hid_ok, hid, hedge_ok, hedge, if_false, Option.isSome_none,
    Bool.false_eq_true, or_self, true_and, decide_eq_true_eq, not_or]
  exact ⟨rfl, fun h => ⟨h.2, h.1⟩, fun h => ⟨h.2, h.1⟩⟩

/-- The example of C8, the test `Success`: ids `%0` before and `%1` after give
true. -/
theorem tmuxTryPaneMove_moved_iff_witness :
    (tmuxTryPaneMove successEnv true ⟨[], 0⟩).1 = true :=
  (tmuxTryPaneMove_moved_iff successEnv true ⟨[], 0⟩ (by decide) (by decide) (by decide)
    (by decide) (by decide)).2.2.mpr (by decide)

/-- C9: outside a multiplexer session (`TMUX` empty or unset)
`tmuxTryPaneMove` returns false for either direction and sends no command. -/
theorem tmuxTryPaneMove_no_session (env : Env) (east : Bool) (st : GoState)
    (hno : env.TMUX = "") :
    tmuxTryPaneMove env east st = (false, st) := by
  unfold tmuxTryPaneMove
  simp [hno]

/-- The example of C9, the test `NoTmux`. -/
theorem tmuxTryPaneMove_no_session_witness :
    tmuxTryPaneMove noTmuxEnv true ⟨[], 0⟩ = (false, ⟨[], 0⟩) ∧
    tmuxTryPaneMove noTmuxEnv false ⟨[], 0⟩ = (false, ⟨[], 0⟩) :=
  ⟨tmuxTryPaneMove_no_session noTmuxEnv true ⟨[], 0⟩ rfl,
   tmuxTryPaneMove_no_session noTmuxEnv false ⟨[], 0⟩ rfl⟩

/-! ## C10: `pickActiveClient` with an active client -/

/-- When some line is an active record, the loop returns the tty of the first
such line, whatever the running best is. -/
theorem pickLoop_active : ∀ (lines : List String) (best : Option Rec),
    (∃ ln ∈ lines, IsActiveRecord ln) →
    ∃ (k : Nat) (ln tty : String), lines[k]? = some ln ∧ IsActiveRecord ln ∧
      (Fields ln)[0]? = some tty ∧
      (∀ (j : Nat) (ln' : String), j < k → lines[j]? = some ln' → ¬ IsActiveRecord ln') ∧
      pickLoop lines best = (tty, none) := by
  intro lines
  induction lines with
  | nil =>
    intro best h
    obtain ⟨ln, hln, _⟩ := h
    simp at hln
  | cons l rest ih =>
    intro best h
    by_cases hact : IsActiveRecord l
    · obtain ⟨hrec, hflag⟩ := hact
      unfold IsClientRecord at hrec
      rcases hF : Fields l with _ | ⟨f0, _ | ⟨f1, _ | ⟨f2, tl⟩⟩⟩
      · rw [hF] at hrec; simp at hrec
      · rw [hF] at hrec; simp at hrec
      · rw [hF] at hrec; simp at hrec
      · rw [hF] at hflag
        simp only [List.getElem?_cons_succ, List.getElem?_cons_zero, Option.some.injEq] at hflag
        refine ⟨0, l, f0, by simp, ⟨by unfold IsClientRecord; rw [hF]; simp, by rw [hF]; simp [hflag]⟩,
          by rw [hF]; simp, ?_, ?_⟩
        · intro j ln' hj
          omega
        · rw [pickLoop, hF]
          simp [hflag]
    · have hrest : ∃ ln ∈ rest, IsActiveRecord ln := by
        obtain ⟨ln, hln, hA⟩ := h
        rcases List.mem_cons.mp hln with h1 | h1
        · subst h1
          exact absurd hA hact
        · exact ⟨ln, h1, hA⟩
      have hshift : ∀ best', (∃ (k : Nat) (ln tty : String), rest[k]? = some ln ∧
          IsActiveRecord ln ∧ (Fields ln)[0]? = some tty ∧
          (∀ (j : Nat) (ln' : String), j < k → rest[j]? = some ln' → ¬ IsActiveRecord ln') ∧
          pickLoop rest best' = (tty, none)) →
          ∃ (k : Nat) (ln tty : String), (l :: rest)[k]? = some ln ∧
          IsActiveRecord ln ∧ (Fields ln)[0]? = some tty ∧
          (∀ (j : Nat) (ln' : String), j < k → (l :: rest)[j]? = some ln' →
            ¬ IsActiveRecord ln') ∧
          pickLoop rest best' = (tty, none) := by
        intro best' hx
        obtain ⟨k, ln, tty, hk, hA, h0, hfirst, hres⟩ := hx
        refine ⟨k + 1, ln, tty, by simpa using hk, hA, h0, ?_, hres⟩
        intro j ln' hj hget
        cases j with
        | zero =>
          simp only [List.getElem?_cons_zero, Option.some.injEq] at hget
          subst hget
          exact hact
        | succ j =>
          simp only [List.getElem?_cons_succ] at hget
          exact hfirst j ln' (by omega) hget
      rw [pickLoop]
      rcases hF : Fields l with _ | ⟨f0, _ | ⟨f1, _ | ⟨f2, tl⟩⟩⟩
      · exact hshift best (ih best hrest)
      · exact hshift best (ih best hrest)
      · exact hshift best (ih best hrest)
      · have hf1 : ¬ f1 = "1" := by
          intro h1
          apply hact
          refine ⟨by unfold IsClientRecord; rw [hF]; simp, by rw [hF]; simp [h1]⟩
        simp only [hf1, decide_False, Bool.false_eq_true, if_false]
        cases best with
        | none => exact hshift _ (ih _ hrest)
        | some b =>
          simp only
          split_ifs
          · exact hshift _ (ih _ hrest)
          · exact hshift _ (ih _ hrest)

/-- C10: for every `list-clients` output, returned without error, in which at
least one client record is flagged active, `pickActiveClient` returns the tty
of the first active record in listing order, with no error, whatever the
activity timestamps are. -/
theorem pickActiveClient_active (env : Env) (st : GoState)
    (hok : (env.runTmuxCmd st.cmds
      ["list-clients", "-F", "#{client_tty} #{client_active} #{client_activity}"]).err = none)
    (hactive : ∃ ln ∈ SplitLines (env.runTmuxCmd st.cmds
      ["list-clients", "-F", "#{client_tty} #{client_active} #{client_activity}"]).out,
      IsActiveRecord ln) :
    ∃ (k : Nat) (ln tty : String),
      (SplitLines (env.runTmuxCmd st.cmds
        ["list-clients", "-F", "#{client_tty} #{client_active} #{client_activity}"]).out)[k]?
        = some ln ∧
      IsActiveRecord ln ∧ (Fields ln)[0]? = some tty ∧
      (∀ (j : Nat) (ln' : String), j < k →
        (SplitLines (env.runTmuxCmd st.cmds
          ["list-clients", "-F", "#{client_tty} #{client_active} #{client_activity}"]).out)[j]?
          = some ln' → ¬ IsActiveRecord ln') ∧
      (pickActiveClient env st).1 = (tty, none) := by
  have hne : (env.runTmuxCmd st.cmds
      ["list-clients", "-F", "#{client_tty} #{client_active} #{client_activity}"]).out ≠ "" := by
    intro h0
    rw [h0] at hactive
    obtain ⟨ln, hln, hA⟩ := hactive
    have hl : ln = "" := by
      have : SplitLines "" = [""] := rfl
      rw [this] at hln
      simpa using hln
    subst hl
    have hrec := hA.1
    have : Fields "" = [] := rfl
    unfold IsClientRecord at hrec
    rw [this] at hrec
    simp at hrec
  obtain ⟨k, ln, tty, hk, hA, h0, hfirst, hres⟩ := pickLoop_active _ none hactive
  refine ⟨k, ln, tty, hk, hA, h0, hfirst, ?_⟩
  unfold pickActiveClient callTmux
  simp [hok, hne, hres]

/-- The examples of C10: the client list of the test
`MultipleClientsOneActive` gives `/dev/ttys001`, and the list
`(ttyA,0,10),(ttyB,1,5),(ttyC,0,20)` gives `ttyB`. -/
theorem pickActiveClient_active_witness :
    (∃ (k : Nat) (ln tty : String),
      (SplitLines (oneActiveRunner []
        ["list-clients", "-F", "#{client_tty} #{client_active} #{client_activity}"]).out)[k]?
        = some ln ∧
      IsActiveRecord ln ∧ (Fields ln)[0]? = some tty ∧
      (∀ (j : Nat) (ln' : String), j < k →
        (SplitLines (oneActiveRunner []
          ["list-clients", "-F", "#{client_tty} #{client_active} #{client_activity}"]).out)[j]?
          = some ln' → ¬ IsActiveRecord ln') ∧
      (pickActiveClient ⟨"", "", oneActiveRunner⟩ ⟨[], 0⟩).1 = (tty, none)) ∧
    (pickActiveClient ⟨"", "", oneActiveRunner⟩ ⟨[], 0⟩).1 = ("/dev/ttys001", none) ∧
    (pickActiveClient ⟨"", "", specClientsRunner⟩ ⟨[], 0⟩).1 = ("ttyB", none) :=
  ⟨pickActiveClient_active ⟨"", "", oneActiveRunner⟩ ⟨[], 0⟩ rfl
      ⟨"/dev/ttys001 1 1627840934", by decide, by decide⟩,
    by decide, by decide⟩

/-! ## C11: `pickActiveClient` without an active client -/

/-- One iteration on a line that is not an active record: the running best is
kept, and then the line is no record or not more recent than the best, or the
line is a record that replaces the best, being the first one or strictly more
recent. -/
theorem pickLoop_step_inactive (l : String) (rest : List String) (best : Option Rec)
    (hl : ¬ IsActiveRecord l) :
    (pickLoop (l :: rest) best = pickLoop rest best ∧
      (IsClientRecord l → ∃ b, best = some b ∧ actOf l ≤ b.act)) ∨
    (∃ tty, IsClientRecord l ∧ (Fields l)[0]? = some tty ∧
      (∀ b, best = some b → b.act < actOf l) ∧
      pickLoop (l :: rest) best = pickLoop rest (some ⟨tty, false, actOf l⟩)) := by
  rw [pickLoop]
  unfold IsActiveRecord IsClientRecord at hl
  unfold IsClientRecord actOf
  rcases hF : Fields l with _ | ⟨f0, _ | ⟨f1, _ | ⟨f2, tl⟩⟩⟩
  · left; simp
  · left; simp
  · left; simp
  · have hf1 : ¬ f1 = "1" := by
      intro h1
      apply hl
      rw [hF]
      simp [h1]
    simp only [hf1, decide_False, Bool.false_eq_true, if_false, List.getElem?_cons_succ,
      List.getElem?_cons_zero, Option.getD_some, List.length_cons]
    cases best with
    | none =>
      right
      exact ⟨f0, by omega, rfl, by simp, rfl⟩
    | some b =>
      by_cases hgt : (ParseInt f2).1 > b.act
      · right
        refine ⟨f0, by omega, rfl, ?_, by simp [hgt]⟩
        intro b' hb'
        simp only [Option.some.injEq] at hb'
        subst hb'
        exact hgt
      · left
        refine ⟨by simp [hgt], fun _ => ⟨b, rfl, not_lt.mp hgt⟩⟩

/-- Without an active record the loop either returns the running best, which
no record beats, or the tty of the first record of greatest timestamp, which
beats the running best. -/
theorem pickLoop_inactive : ∀ (lines : List String) (best : Option Rec),
    (∀ ln ∈ lines, ¬ IsActiveRecord ln) →
    (pickLoop lines best = ((best.map Rec.tty).getD "", none) ∧
      ∀ (j : Nat) (ln : String), lines[j]? = some ln → IsClientRecord ln →
        ∃ b, best = some b ∧ actOf ln ≤ b.act) ∨
    (∃ (k : Nat) (ln tty : String), lines[k]? = some ln ∧ IsClientRecord ln ∧
      (Fields ln)[0]? = some tty ∧ (∀ b, best = some b → b.act < actOf ln) ∧
      pickLoop lines best = (tty, none) ∧
      ∀ (j : Nat) (ln' : String), lines[j]? = some ln' → IsClientRecord ln' →
        actOf ln' ≤ actOf ln ∧ (j < k → actOf ln' < actOf ln)) := by
  intro lines
  induction lines with
  | nil =>
    intro best _
    left
    refine ⟨?_, by intro j ln hj; simp at hj⟩
    cases best <;> rfl
  | cons l rest ih =>
    intro best hno
    have hl : ¬ IsActiveRecord l := hno l (List.mem_cons_self _ _)
    have hrest : ∀ ln ∈ rest, ¬ IsActiveRecord ln :=
      fun ln h => hno ln (List.mem_cons_of_mem _ h)
    rcases pickLoop_step_inactive l rest best hl with ⟨hs, hkeep⟩ | ⟨tty0, hrec0, ht0, hbeat0, hs⟩
    · rw [hs]
      rcases ih best hrest with ⟨hres, hall⟩ | ⟨k, ln, tty, hk, hrec, ht, hbeat, hres, hmax⟩
      · left
        refine ⟨hres, ?_⟩
        intro j ln hj hr
        cases j with
        | zero =>
          simp only [List.getElem?_cons_zero, Option.some.injEq] at hj
          subst hj
          exact hkeep hr
        | succ j =>
          simp only [List.getElem?_cons_succ] at hj
          exact hall j ln hj hr
      · right
        refine ⟨k + 1, ln, tty, by simpa using hk, hrec, ht, hbeat, hres, ?_⟩
        intro j ln' hj hr
        cases j with
        | zero =>
          simp only [List.getElem?_cons_zero, Option.some.injEq] at hj
          subst hj
          obtain ⟨b, hb, hle⟩ := hkeep hr
          have hlt := lt_of_le_of_lt hle (hbeat b hb)
          exact ⟨le_of_lt hlt, fun _ => hlt⟩
        | succ j =>
          simp only [List.getElem?_cons_succ] at hj
          obtain ⟨h1, h2⟩ := hmax j ln' hj hr
          exact ⟨h1, fun hjk => h2 (by omega)⟩
    · rw [hs]
      rcases ih (some ⟨tty0, false, actOf l⟩) hrest with
        ⟨hres, hall⟩ | ⟨k, ln, tty, hk, hrec, ht, hbeat, hres, hmax⟩
      · right
        refine ⟨0, l, tty0, by simp, hrec0, ht0, hbeat0, by rw [hres]; rfl, ?_⟩
        intro j ln' hj hr
        cases j with
        | zero =>
          simp only [List.getElem?_cons_zero, Option.some.injEq] at hj
          subst hj
          exact ⟨le_refl _, fun h => absurd h (by omega)⟩
        | succ j =>
          simp only [List.getElem?_cons_succ] at hj
          obtain ⟨b, hb, hle⟩ := hall j ln' hj hr
          simp only [Option.some.injEq] at hb
          subst hb
          exact ⟨hle, fun h => absurd h (by omega)⟩
      · right
        have hlt0 : actOf l < actOf ln := hbeat _ rfl
        refine ⟨k + 1, ln, tty, by simpa using hk, hrec, ht, ?_, hres, ?_⟩
        · intro b hb
          exact lt_trans (hbeat0 b hb) hlt0
        · intro j ln' hj hr
          cases j with
          | zero =>
            simp only [List.getElem?_cons_zero, Option.some.injEq] at hj
            subst hj
            exact ⟨le_of_lt hlt0, fun _ => hlt0⟩
          | succ j =>
            simp only [List.getElem?_cons_succ] at hj
            obtain ⟨h1, h2⟩ := hmax j ln' hj hr
            exact ⟨h1, fun hjk => h2 (by omega)⟩

/-- C11: for every `list-clients` output, returned without error, that holds
at least one client record and no record flagged active, `pickActiveClient`
returns, with no error, the tty of a record whose activity timestamp is the
maximum over all records, and every record listed before it has a strictly
smaller timestamp, so of several most recent records the first is returned. -/
theorem pickActiveClient_most_recent (env : Env) (st : GoState)
    (hok : (env.runTmuxCmd st.cmds listClientsCmd).err = none)
    (hrec : ∃ ln ∈ SplitLines (env.runTmuxCmd st.cmds listClientsCmd).out, IsClientRecord ln)
    (hnone : ∀ ln ∈ SplitLines (env.runTmuxCmd st.cmds listClientsCmd).out,
      ¬ IsActiveRecord ln) :
    ∃ (k : Nat) (ln tty : String),
      (SplitLines (env.runTmuxCmd st.cmds listClientsCmd).out)[k]? = some ln ∧
      IsClientRecord ln ∧ (Fields ln)[0]? = some tty ∧
      (∀ (j : Nat) (ln' : String),
        (SplitLines (env.runTmuxCmd st.cmds listClientsCmd).out)[j]? = some ln' →
        IsClientRecord ln' → actOf ln' ≤ actOf ln ∧ (j < k → actOf ln' < actOf ln)) ∧
      (pickActiveClient env st).1 = (tty, none) := by
  have hne : (env.runTmuxCmd st.cmds listClientsCmd).out ≠ "" := by
    intro h0
    rw [h0] at hrec
    obtain ⟨ln, hln, hR⟩ := hrec
    have hl : ln = "" := by
      have : SplitLines "" = [""] := rfl
      rw [this] at hln
      simpa using hln
    subst hl
    have : Fields "" = [] := rfl
    unfold IsClientRecord at hR
    rw [this] at hR
    simp at hR
  rcases pickLoop_inactive _ none hnone with ⟨_, hall⟩ | ⟨k, ln, tty, hk, hR, ht, _, hres, hmax⟩
  · obtain ⟨ln, hln, hR⟩ := hrec
    obtain ⟨j, hj⟩ := List.mem_iff_getElem?.mp hln
    obtain ⟨b, hb, _⟩ := hall j ln hj hR
    simp at hb
  · refine ⟨k, ln, tty, hk, hR, ht, hmax, ?_⟩
    unfold listClientsCmd at hok hne hres
    unfold pickActiveClient callTmux
    simp [hok, hne, hres]

/-- The examples of C11: the client list of the test `MultipleClientsInactive`
gives `/dev/ttys001`, and of two inactive clients with the same greatest
timestamp the first listed is returned. -/
theorem pickActiveClient_most_recent_witness :
    (∃ (k : Nat) (ln tty : String),
      (SplitLines (inactiveRunner [] listClientsCmd).out)[k]? = some ln ∧
      IsClientRecord ln ∧ (Fields ln)[0]? = some tty ∧
      (∀ (j : Nat) (ln' : String),
        (SplitLines (inactiveRunner [] listClientsCmd).out)[j]? = some ln' →
        IsClientRecord ln' → actOf ln' ≤ actOf ln ∧ (j < k → actOf ln' < actOf ln)) ∧
      (pickActiveClient ⟨"", "", inactiveRunner⟩ ⟨[], 0⟩).1 = (tty, none)) ∧
    (pickActiveClient ⟨"", "", inactiveRunner⟩ ⟨[], 0⟩).1 = ("/dev/ttys001", none) ∧
    (pickActiveClient ⟨"", "", tiedRunner⟩ ⟨[], 0⟩).1 = ("ttyA", none) :=
  ⟨pickActiveClient_most_recent ⟨"", "", inactiveRunner⟩ ⟨[], 0⟩ rfl
      ⟨"/dev/ttys000 0 1627840930", by decide, by decide⟩ (by decide),
    by decide, by decide⟩

/-! ## C12, C13, C15: `tmuxSelectEdgePane` -/

/-- The effect of `pickActiveClient` is the one `list-clients` command, and its
result depends on the commands sent so far only. -/
theorem pickActiveClient_eq (env : Env) (st : GoState) :
    pickActiveClient env st =
      ((pickActiveClient env ⟨st.cmds, 0⟩).1, { st with cmds := st.cmds ++ [listClientsCmd] }) := by
  unfold pickActiveClient callTmux listClientsCmd
  simp only
  split_ifs <;> rfl

/-- One tick of the polling loop, with the commands named. -/
theorem pollLoop_succ (env : Env) (east : Bool) (n : Nat) (st : GoState) :
    pollLoop env east (n + 1) st =
      if (pickActiveClient env ⟨st.cmds, 0⟩).1.2.isSome ∨
          TrimSpace (pickActiveClient env ⟨st.cmds, 0⟩).1.1 = "" then
        pollLoop env east n ⟨st.cmds ++ [listClientsCmd], st.sleeps + 1⟩
      else if (env.runTmuxCmd (st.cmds ++ [listClientsCmd])
            (windowCmd (pickActiveClient env ⟨st.cmds, 0⟩).1.1)).err.isSome ∨
          TrimSpace (env.runTmuxCmd (st.cmds ++ [listClientsCmd])
            (windowCmd (pickActiveClient env ⟨st.cmds, 0⟩).1.1)).out = "" then
        pollLoop env east n
          ⟨st.cmds ++ [listClientsCmd, windowCmd (pickActiveClient env ⟨st.cmds, 0⟩).1.1],
            st.sleeps + 1⟩
      else if (env.runTmuxCmd
            (st.cmds ++ [listClientsCmd, windowCmd (pickActiveClient env ⟨st.cmds, 0⟩).1.1])
            (listPanesCmd (env.runTmuxCmd (st.cmds ++ [listClientsCmd])
              (windowCmd (pickActiveClient env ⟨st.cmds, 0⟩).1.1)).out)).err.isSome ∨
          TrimSpace (env.runTmuxCmd
            (st.cmds ++ [listClientsCmd, windowCmd (pickActiveClient env ⟨st.cmds, 0⟩).1.1])
            (listPanesCmd (env.runTmuxCmd (st.cmds ++ [listClientsCmd])
              (windowCmd (pickActiveClient env ⟨st.cmds, 0⟩).1.1)).out)).out = "" then
        pollLoop env east n
          ⟨st.cmds ++ [listClientsCmd, windowCmd (pickActiveClient env ⟨st.cmds, 0⟩).1.1,
            listPanesCmd (env.runTmuxCmd (st.cmds ++ [listClientsCmd])
              (windowCmd (pickActiveClient env ⟨st.cmds, 0⟩).1.1)).out],
            st.sleeps + 1⟩
      else
        ⟨st.cmds ++ [listClientsCmd, windowCmd (pickActiveClient env ⟨st.cmds, 0⟩).1.1,
            listPanesCmd (env.runTmuxCmd (st.cmds ++ [listClientsCmd])
              (windowCmd (pickActiveClient env ⟨st.cmds, 0⟩).1.1)).out] ++
          (if findTarget east (SplitLines (env.runTmuxCmd
              (st.cmds ++ [listClientsCmd, windowCmd (pickActiveClient env ⟨st.cmds, 0⟩).1.1])
              (listPanesCmd (env.runTmuxCmd (st.cmds ++ [listClientsCmd])
                (windowCmd (pickActiveClient env ⟨st.cmds, 0⟩).1.1)).out)).out) ≠ "" then
            [selectTargetCmd (findTarget east (SplitLines (env.runTmuxCmd
              (st.cmds ++ [listClientsCmd, windowCmd (pickActiveClient env ⟨st.cmds, 0⟩).1.1])
              (listPanesCmd (env.runTmuxCmd (st.cmds ++ [listClientsCmd])
                (windowCmd (pickActiveClient env ⟨st.cmds, 0⟩).1.1)).out)).out))]
          else []),
          st.sleeps + 1⟩ := by
  rw [pollLoop, pickActiveClient_eq]
  simp only [callTmux, windowCmd, listPanesCmd, selectTargetCmd, Bool.or_eq_true,
    decide_eq_true_eq, List.append_assoc, List.singleton_append, List.cons_append,
    List.nil_append, ne_eq, ite_not]
  split_ifs <;> simp_all

/-- Fields are never empty. -/
theorem fieldsAux_ne_empty : ∀ (cs cur : List Char), ∀ f ∈ fieldsAux cs cur, f ≠ "" := by
  intro cs
  induction cs with
  | nil =>
    intro cur f hf
    cases cur with
    | nil => simp [fieldsAux] at hf
    | cons c cur =>
      simp only [fieldsAux, List.isEmpty_cons, Bool.false_eq_true, if_false,
        List.mem_singleton] at hf
      subst hf
      intro h
      have := congrArg String.data h
      simp at this
  | cons c cs ih =>
    intro cur f hf
    rw [fieldsAux] at hf
    by_cases hsp : isSpace c = true
    · cases cur with
      | nil =>
        simp only [hsp, if_true, List.isEmpty_nil] at hf
        exact ih [] f hf
      | cons d cur =>
        simp only [hsp, if_true, List.isEmpty_cons, Bool.false_eq_true, if_false,
          List.mem_cons] at hf
        rcases hf with h | h
        · subst h
          intro h
          have := congrArg String.data h
          simp at this
        · exact ih [] f h
    · simp only [hsp, if_false] at hf
      exact ih (c :: cur) f hf

/-- The id of an edge pane line is not empty. -/
theorem IsEdgePane.id_ne_empty {east : Bool} {ln id : String}
    (h : IsEdgePane east ln id) : id ≠ "" := by
  obtain ⟨atL, atR, hF, _⟩ := h
  apply fieldsAux_ne_empty ln.data [] id
  show id ∈ Fields ln
  rw [hF]
  simp

/-- One iteration of the inner loop of the edge lander. -/
theorem findTarget_cons (east : Bool) (ln : String) (rest : List String) :
    (∃ id, IsEdgePane east ln id ∧ findTarget east (ln :: rest) = id) ∨
    ((∀ id, ¬ IsEdgePane east ln id) ∧
      findTarget east (ln :: rest) = findTarget east rest) := by
  unfold IsEdgePane
  rw [findTarget]
  rcases hF : Fields ln with _ | ⟨f0, _ | ⟨f1, _ | ⟨f2, _ | ⟨f3, tl⟩⟩⟩⟩
  · right; simp
  · right; simp
  · right; simp
  · cases east with
    | true =>
      by_cases h1 : f1 = "1"
      · left; exact ⟨f0, ⟨f1, f2, rfl, by simp [h1]⟩, by simp [h1]⟩
      · right
        refine ⟨?_, by simp [h1]⟩
        rintro id ⟨atL, atR, hEq, hflag⟩
        simp only [List.cons.injEq, and_true] at hEq
        obtain ⟨_, h2, _⟩ := hEq
        simp only [if_true] at hflag
        exact h1 (h2.trans hflag)
    | false =>
      by_cases h2 : f2 = "1"
      · left; exact ⟨f0, ⟨f1, f2, rfl, by simp [h2]⟩, by simp [h2]⟩
      · right
        refine ⟨?_, by simp [h2]⟩
        rintro id ⟨atL, atR, hEq, hflag⟩
        simp only [List.cons.injEq, and_true] at hEq
        obtain ⟨_, _, h3⟩ := hEq
        simp only [Bool.false_eq_true, if_false] at hflag
        exact h2 (h3.trans hflag)
  · right; simp

/-- The inner loop returns the id of the first edge pane line. -/
theorem findTarget_first (east : Bool) : ∀ (lines : List String) (k : Nat) (ln id : String),
    lines[k]? = some ln → IsEdgePane east ln id →
    (∀ (j : Nat) (ln' id' : String), j < k → lines[j]? = some ln' → ¬ IsEdgePane east ln' id') →
    findTarget east lines = id := by
  intro lines
  induction lines with
  | nil =>
    intro k ln id hk
    simp at hk
  | cons l rest ih =>
    intro k ln id hk hE hfirst
    cases k with
    | zero =>
      simp only [List.getElem?_cons_zero, Option.some.injEq] at hk
      subst hk
      rcases findTarget_cons east l rest with ⟨id', hE', hres⟩ | ⟨hno, _⟩
      · obtain ⟨a, b, hF, _⟩ := hE
        obtain ⟨a', b', hF', _⟩ := hE'
        rw [hF] at hF'
        simp only [List.cons.injEq, and_true] at hF'
        rw [hres]
        exact hF'.1.symm
      · exact absurd hE (hno id)
    | succ k =>
      simp only [List.getElem?_cons_succ] at hk
      rcases findTarget_cons east l rest with ⟨id', hE', _⟩ | ⟨_, hres⟩
      · exact absurd hE' (hfirst 0 l id' (by omega) (by simp))
      · rw [hres]
        apply ih k ln id hk hE
        intro j ln' id' hj hget
        exact hfirst (j + 1) ln' id' (by omega) (by simpa using hget)

/-- A target found by the inner loop is the id of an edge pane line. -/
theorem findTarget_mem (east : Bool) : ∀ (lines : List String),
    findTarget east lines ≠ "" →
    ∃ ln ∈ lines, IsEdgePane east ln (findTarget east lines) := by
  intro lines
  induction lines with
  | nil =>
    intro h
    exact absurd rfl h
  | cons l rest ih =>
    intro h
    rcases findTarget_cons east l rest with ⟨id, hE, hres⟩ | ⟨_, hres⟩
    · rw [hres]
      exact ⟨l, List.mem_cons_self _ _, hE⟩
    · rw [hres] at h ⊢
      obtain ⟨ln, hln, hE⟩ := ih h
      exact ⟨ln, List.mem_cons_of_mem _ hln, hE⟩

/-- A positive argument is the budget. -/
theorem effectiveWaitMs_of_pos (env : Env) (waitMs : Int) (h : 0 < waitMs) :
    effectiveWaitMs env waitMs = waitMs := by
  unfold effectiveWaitMs
  simp [not_le.mpr h]

/-- The budget used is always positive. -/
theorem effectiveWaitMs_pos (env : Env) (waitMs : Int) : 0 < effectiveWaitMs env waitMs := by
  unfold effectiveWaitMs
  by_cases h1 : waitMs ≤ 0
  · simp only [h1, if_true]
    rcases Atoi env.TTYHOP_EDGE_WAIT_MS with ⟨v, e⟩
    simp only
    split_ifs with h2
    · decide
    · simp only [Bool.or_eq_true, decide_eq_true_eq, not_or, not_le] at h2
      exact h2.2
  · simp only [h1, if_false]
    exact not_le.mp h1

/-- C12: for every budget of at least one poll interval (the budget is the
argument `waitMs` when positive, else the `TTYHOP_EDGE_WAIT_MS` value when it
parses to a positive number, else 200 ms, so the default call with
`waitMs = 0` is covered) and every runner whose client, window-id and
pane-list queries succeed on the first tick, `tmuxSelectEdgePane` sends,
after one sleep, these three queries and then
`select-pane -t` on the first listed pane whose left-edge flag is 1 when
`east` is true, whose right-edge flag is 1 when `east` is false, and stops:
nothing else is sent and no further tick is slept. -/
theorem tmuxSelectEdgePane_lands (env : Env) (east : Bool) (waitMs : Int) (st : GoState)
    (tty win panes : String) (k : Nat) (ln id : String)
    (hbudget : pollIntervalMs ≤ effectiveWaitMs env waitMs)
    (hclient : (pickActiveClient env st).1 = (tty, none))
    (htty : TrimSpace tty ≠ "")
    (hwin : env.runTmuxCmd (st.cmds ++ [listClientsCmd]) (windowCmd tty) = ⟨win, none⟩)
    (hwin_ne : TrimSpace win ≠ "")
    (hpanes : env.runTmuxCmd (st.cmds ++ [listClientsCmd, windowCmd tty]) (listPanesCmd win) =
      ⟨panes, none⟩)
    (hpanes_ne : TrimSpace panes ≠ "")
    (hk : (SplitLines panes)[k]? = some ln)
    (hedge : IsEdgePane east ln id)
    (hfirst : ∀ (j : Nat) (ln' id' : String), j < k → (SplitLines panes)[j]? = some ln' →
      ¬ IsEdgePane east ln' id') :
    tmuxSelectEdgePane env east waitMs st =
      ⟨st.cmds ++ [listClientsCmd, windowCmd tty, listPanesCmd win, ["select-pane", "-t", id]],
        st.sleeps + 1⟩ := by
  have hb : (25 : Int) ≤ effectiveWaitMs env waitMs := hbudget
  have hpolls : ∃ m, (Int.tdiv (effectiveWaitMs env waitMs) pollIntervalMs).toNat = m + 1 := by
    have h1 : 1 ≤ (Int.tdiv (effectiveWaitMs env waitMs) 25).toNat := by
      rw [Int.tdiv_eq_ediv (by omega) (by omega)]
      omega
    exact ⟨(Int.tdiv (effectiveWaitMs env waitMs) 25).toNat - 1,
      by unfold pollIntervalMs; omega⟩
  obtain ⟨m, hm⟩ := hpolls
  have hpc : (pickActiveClient env ⟨st.cmds, 0⟩).1 = (tty, none) := by
    rw [pickActiveClient_eq] at hclient
    exact hclient
  have htarget : findTarget east (SplitLines panes) = id :=
    findTarget_first east _ k ln id hk hedge hfirst
  unfold tmuxSelectEdgePane
  simp only [hm]
  rw [pollLoop_succ]
  simp [hpc, htty, hwin, hwin_ne, hpanes, hpanes_ne, htarget, hedge.id_ne_empty,
    selectTargetCmd]

/-- The example of C12, the tests `SelectLeftmostPaneWhenMovingEast` and
`SelectRightmostPaneWhenMovingWest`: with panes `%1 1 0`, `%2 0 0`, `%3 0 1`
and a budget of 50 ms, hopping east selects `%1` and hopping west `%3`; the
default call with `waitMs = 0`, budget 200 ms, selects `%1` as well. -/
theorem tmuxSelectEdgePane_lands_witness :
    tmuxSelectEdgePane ⟨"", "", mockTmuxSequence⟩ true 50 ⟨[], 0⟩ =
      ⟨[listClientsCmd, windowCmd "/dev/ttys001", listPanesCmd "@1",
        ["select-pane", "-t", "%1"]], 1⟩ ∧
    tmuxSelectEdgePane ⟨"", "", mockTmuxSequence⟩ false 50 ⟨[], 0⟩ =
      ⟨[listClientsCmd, windowCmd "/dev/ttys001", listPanesCmd "@1",
        ["select-pane", "-t", "%3"]], 1⟩ ∧
    tmuxSelectEdgePane ⟨"", "", mockTmuxSequence⟩ true 0 ⟨[], 0⟩ =
      ⟨[listClientsCmd, windowCmd "/dev/ttys001", listPanesCmd "@1",
        ["select-pane", "-t", "%1"]], 1⟩ :=
  ⟨tmuxSelectEdgePane_lands ⟨"", "", mockTmuxSequence⟩ true 50 ⟨[], 0⟩
      "/dev/ttys001" "@1" "%1 1 0\n%2 0 0\n%3 0 1" 0 "%1 1 0" "%1"
      (by decide) (by decide) (by decide) rfl (by decide) rfl (by decide) (by decide)
      ⟨"1", "0", by decide, by decide⟩ (by intro j _ _ hj; omega),
   tmuxSelectEdgePane_lands ⟨"", "", mockTmuxSequence⟩ false 50 ⟨[], 0⟩
      "/dev/ttys001" "@1" "%1 1 0\n%2 0 0\n%3 0 1" 2 "%3 0 1" "%3"
      (by decide) (by decide) (by decide) rfl (by decide) rfl (by decide) (by decide)
      ⟨"0", "1", by decide, by decide⟩
      (by
        intro j ln' id' hj hget
        rintro ⟨atL, atR, hF, hflag⟩
        have h01 : j = 0 ∨ j = 1 := by omega
        rcases h01 with h | h <;> subst h
        · have h2 : SplitLines "%1 1 0\n%2 0 0\n%3 0 1" = ["%1 1 0", "%2 0 0", "%3 0 1"] := by
            decide
          rw [h2] at hget
          simp only [List.getElem?_cons_zero, Option.some.injEq] at hget
          subst hget
          have h3 : Fields "%1 1 0" = ["%1", "1", "0"] := by decide
          rw [h3] at hF
          simp only [List.cons.injEq, and_true] at hF
          simp only [Bool.false_eq_true, if_false] at hflag
          rw [hflag] at hF
          exact absurd hF.2.2 (by decide)
        · have h2 : SplitLines "%1 1 0\n%2 0 0\n%3 0 1" = ["%1 1 0", "%2 0 0", "%3 0 1"] := by
            decide
          rw [h2] at hget
          simp only [List.getElem?_cons_succ, List.getElem?_cons_zero, Option.some.injEq] at hget
          subst hget
          have h3 : Fields "%2 0 0" = ["%2", "0", "0"] := by decide
          rw [h3] at hF
          simp only [List.cons.injEq, and_true] at hF
          simp only [Bool.false_eq_true, if_false] at hflag
          rw [hflag] at hF
          exact absurd hF.2.2 (by decide)),
   tmuxSelectEdgePane_lands ⟨"", "", mockTmuxSequence⟩ true 0 ⟨[], 0⟩
      "/dev/ttys001" "@1" "%1 1 0\n%2 0 0\n%3 0 1" 0 "%1 1 0" "%1"
      (by decide) (by decide) (by decide) rfl (by decide) rfl (by decide) (by decide)
      ⟨"1", "0", by decide, by decide⟩ (by intro j _ _ hj; omega)⟩

/-- C13, as stated, fails for a budget that is not positive: the code takes
`waitMs <= 0` as "not given" and polls with the environment value or the
default of 200 ms, so with the budget `0` (smaller than one poll interval) and
no environment value it sleeps eight times and sends eight commands. -/
theorem tmuxSelectEdgePane_zero_budget_counterexample :
    (0 : Int) < pollIntervalMs ∧
    tmuxSelectEdgePane failingEnv true 0 ⟨[], 0⟩ = ⟨List.replicate 8 listClientsCmd, 8⟩ := by
  decide

/-- C13 (amended): the poll budget is the argument `waitMs` when it is
positive, else the value of `TTYHOP_EDGE_WAIT_MS` when it parses to a positive
number, else 200 ms; for every such budget smaller than one poll interval
(25 ms), in particular for every argument `0 < waitMs < 25`, and either
direction, `tmuxSelectEdgePane` performs zero polling attempts: it does not
sleep, sends no command, selects no pane, and returns. -/
theorem tmuxSelectEdgePane_budget_exhausted (env : Env) (east : Bool) (waitMs : Int)
    (st : GoState) :
    (effectiveWaitMs env waitMs < pollIntervalMs →
      tmuxSelectEdgePane env east waitMs st = st) ∧
    (0 < waitMs → waitMs < pollIntervalMs →
      tmuxSelectEdgePane env east waitMs st = st) := by
  have key : effectiveWaitMs env waitMs < pollIntervalMs →
      tmuxSelectEdgePane env east waitMs st = st := by
    intro h
    have hpos := effectiveWaitMs_pos env waitMs
    have h25 : effectiveWaitMs env waitMs < 25 := h
    have h0 : (Int.tdiv (effectiveWaitMs env waitMs) pollIntervalMs).toNat = 0 := by
      unfold pollIntervalMs
      rw [Int.tdiv_eq_ediv (by omega) (by omega)]
      omega
    unfold tmuxSelectEdgePane
    simp only [h0]
    rfl
  refine ⟨key, ?_⟩
  intro h0 h
  apply key
  rw [effectiveWaitMs_of_pos env waitMs h0]
  exact h

/-- The example of C13: a budget of 24 ms, and a budget left to the
environment value `10`, send nothing. -/
theorem tmuxSelectEdgePane_budget_exhausted_witness :
    tmuxSelectEdgePane failingEnv true 24 ⟨[], 0⟩ = ⟨[], 0⟩ ∧
    tmuxSelectEdgePane ⟨"", "10", mockTmuxSequence⟩ false 0 ⟨[], 0⟩ = ⟨[], 0⟩ :=
  ⟨(tmuxSelectEdgePane_budget_exhausted failingEnv true 24 ⟨[], 0⟩).2 (by decide) (by decide),
   (tmuxSelectEdgePane_budget_exhausted ⟨"", "10", mockTmuxSequence⟩ false 0 ⟨[], 0⟩).1
     (by decide)⟩

/-- Queries sent before a tick that went on do not change what the later ticks
add. -/
theorem LandsAtMostOnce.prepend {env : Env} {east : Bool}
    {before p added : List (List String)}
    (hp : ∀ c ∈ p, c.head? ≠ some "select-pane")
    (h : LandsAtMostOnce env east (before ++ p) added) :
    LandsAtMostOnce env east before (p ++ added) := by
  rcases h with h | ⟨pre, win, ln, id, hadd, hpre, herr, hne, hln, hE⟩
  · left
    intro c hc
    rcases List.mem_append.mp hc with h1 | h1
    · exact hp c h1
    · exact h c h1
  · right
    refine ⟨p ++ pre, win, ln, id, by rw [hadd, List.append_assoc], ?_, ?_, ?_, ?_, hE⟩
    · intro c hc
      rcases List.mem_append.mp hc with h1 | h1
      · exact hp c h1
      · exact hpre c h1
    · rw [← List.append_assoc]; exact herr
    · rw [← List.append_assoc]; exact hne
    · rw [← List.append_assoc]; exact hln

/-- The polling loop adds at most one `select-pane`, on an edge pane of a
successful `list-panes` reply. -/
theorem pollLoop_lands (env : Env) (east : Bool) : ∀ (n : Nat) (st : GoState),
    ∃ added, (pollLoop env east n st).cmds = st.cmds ++ added ∧
      LandsAtMostOnce env east st.cmds added := by
  intro n
  induction n with
  | zero =>
    intro st
    exact ⟨[], by simp [pollLoop], Or.inl (by simp)⟩
  | succ n ih =>
    intro st
    rw [pollLoop_succ]
    split_ifs with h1 h2 h3 h4
    · obtain ⟨added, hc, hL⟩ := ih ⟨st.cmds ++ [listClientsCmd], st.sleeps + 1⟩
      refine ⟨[listClientsCmd] ++ added, by rw [hc, List.append_assoc], ?_⟩
      exact LandsAtMostOnce.prepend (by simp [listClientsCmd]) hL
    · obtain ⟨added, hc, hL⟩ := ih ⟨st.cmds ++ [listClientsCmd,
        windowCmd (pickActiveClient env ⟨st.cmds, 0⟩).1.1], st.sleeps + 1⟩
      refine ⟨[listClientsCmd, windowCmd (pickActiveClient env ⟨st.cmds, 0⟩).1.1] ++ added,
        by rw [hc, List.append_assoc], ?_⟩
      exact LandsAtMostOnce.prepend (by simp [listClientsCmd, windowCmd]) hL
    · obtain ⟨added, hc, hL⟩ := ih ⟨st.cmds ++ [listClientsCmd,
        windowCmd (pickActiveClient env ⟨st.cmds, 0⟩).1.1,
        listPanesCmd (env.runTmuxCmd (st.cmds ++ [listClientsCmd])
          (windowCmd (pickActiveClient env ⟨st.cmds, 0⟩).1.1)).out], st.sleeps + 1⟩
      refine ⟨[listClientsCmd, windowCmd (pickActiveClient env ⟨st.cmds, 0⟩).1.1,
        listPanesCmd (env.runTmuxCmd (st.cmds ++ [listClientsCmd])
          (windowCmd (pickActiveClient env ⟨st.cmds, 0⟩).1.1)).out] ++ added,
        by rw [hc, List.append_assoc], ?_⟩
      exact LandsAtMostOnce.prepend (by simp [listClientsCmd, windowCmd, listPanesCmd]) hL
    · refine ⟨_, List.append_assoc _ _ _, Or.inr ?_⟩
      obtain ⟨ln, hln, hE⟩ := findTarget_mem east _ h4
      simp only [not_or, Option.not_isSome_iff_eq_none] at h3
      exact ⟨[listClientsCmd, windowCmd (pickActiveClient env ⟨st.cmds, 0⟩).1.1], _, ln, _,
        rfl, by simp [listClientsCmd, windowCmd], by simpa using h3.1,
        by simpa using h3.2, by simpa using hln, hE⟩
    · refine ⟨_, List.append_assoc _ _ _, Or.inl ?_⟩
      simp [listClientsCmd, windowCmd, listPanesCmd]

/-- C15: for every command runner, budget and direction, the commands
`tmuxSelectEdgePane` adds hold at most one `select-pane`; when there is one it
is the last command, it targets the id of a pane flagged at the landing edge
in the reply of the `list-panes` query sent just before, and that reply came
without error and was not blank; in particular, when `list-panes` fails or
returns nothing at every call, no pane is selected. -/
theorem tmuxSelectEdgePane_selects_at_most_once (env : Env) (east : Bool) (waitMs : Int)
    (st : GoState) :
    ∃ added, (tmuxSelectEdgePane env east waitMs st).cmds = st.cmds ++ added ∧
      LandsAtMostOnce env east st.cmds added ∧
      added.countP (fun c => decide (c.head? = some "select-pane")) ≤ 1 ∧
      ((∀ (sent : List (List String)) (win : String),
          (env.runTmuxCmd sent (listPanesCmd win)).err ≠ none ∨
          TrimSpace (env.runTmuxCmd sent (listPanesCmd win)).out = "") →
        ∀ c ∈ added, c.head? ≠ some "select-pane") := by
  unfold tmuxSelectEdgePane
  obtain ⟨added, hc, hL⟩ := pollLoop_lands env east
    (Int.tdiv (effectiveWaitMs env waitMs) pollIntervalMs).toNat st
  refine ⟨added, hc, hL, ?_, ?_⟩
  · rcases hL with h | ⟨pre, win, ln, id, hadd, hpre, _, _, _, _⟩
    · have h0 : added.countP (fun c => decide (c.head? = some "select-pane")) = 0 := by
        rw [List.countP_eq_zero]
        intro c hcm
        simpa using h c hcm
      omega
    · have h0 : pre.countP (fun c => decide (c.head? = some "select-pane")) = 0 := by
        rw [List.countP_eq_zero]
        intro c hcm
        simpa using hpre c hcm
      rw [hadd, List.countP_append, h0]
      simp [List.countP_cons, listPanesCmd, selectTargetCmd]
  · intro hfail
    rcases hL with h | ⟨pre, win, ln, id, _, _, herr, hne, _, _⟩
    · exact h
    · rcases hfail (st.cmds ++ pre) win with h | h
      · exact absurd herr h
      · exact absurd h hne

/-- The example of C15, the test `NoActionIfListPanesFails`: with a runner
whose `list-panes` always errors and a budget of 50 ms, the two ticks send
their queries and no `select-pane`. -/
theorem tmuxSelectEdgePane_selects_at_most_once_witness :
    (∃ added, (tmuxSelectEdgePane ⟨"", "", listPanesFailsRunner⟩ true 50 ⟨[], 0⟩).cmds =
        [] ++ added ∧
      ∀ c ∈ added, c.head? ≠ some "select-pane") ∧
    tmuxSelectEdgePane ⟨"", "", listPanesFailsRunner⟩ true 50 ⟨[], 0⟩ =
      ⟨[listClientsCmd, windowCmd "/dev/ttys001", listPanesCmd "@1",
        listClientsCmd, windowCmd "/dev/ttys001", listPanesCmd "@1"], 2⟩ := by
  refine ⟨?_, by decide⟩
  obtain ⟨added, hc, _, _, hnone⟩ :=
    tmuxSelectEdgePane_selects_at_most_once ⟨"", "", listPanesFailsRunner⟩ true 50 ⟨[], 0⟩
  exact ⟨added, hc, hnone (fun sent win => Or.inl (by simp [listPanesFailsRunner, listPanesCmd]))⟩

/-! ## C14 and C16: outcomes of the orchestrator -/

/-- The bridge returns `0` when the pane did not move. -/
theorem goTmuxTryPaneMove_of_not_moved (env : Env) (east : Int) (g : GoState)
    (hmove : (tmuxTryPaneMove env (decide (east ≠ 0)) g).1 = false) :
    goTmuxTryPaneMove env east g = (0, (tmuxTryPaneMove env (decide (east ≠ 0)) g).2) := by
  unfold goTmuxTryPaneMove
  rcases hres : tmuxTryPaneMove env (decide (east ≠ 0)) g with ⟨m, g'⟩
  rw [hres] at hmove
  simp only at hmove
  subst hmove
  rfl

/-- The orchestrator when the window search finds the neighbor `b`. -/
theorem alacritty_focus_neighbor_dbg_found (env : Env) (ax : AXWorld)
    (east debug do_edge edge_steps wait_ms : Int) (st : HopState)
    (axApp meWin : AXUIElementRef) (meR : CGRect) (wins : List AXUIElementRef)
    (b : AXUIElementRef)
    (hmove : (tmuxTryPaneMove env (decide (east ≠ 0)) st.go).1 = false)
    (htrust : ax.trusted = true)
    (happ : (ax.frontmostApp <|> ax.focusedApp) = some axApp)
    (hala : app_is_alacritty ax axApp = true)
    (hwin : app_focused_window ax axApp = some meWin)
    (hrect : ax_get_rect ax meWin = some meR)
    (hwins : app_windows_retained ax axApp = some wins)
    (hbest : (neighborScan (ax_get_rect ax) (decide (east ≠ 0)) meWin meR wins).best = some b) :
    alacritty_focus_neighbor_dbg env ax east debug do_edge edge_steps wait_ms st =
      if do_edge ≠ 0 then
        (0, ⟨goTmuxSelectEdge env east wait_ms (tmuxTryPaneMove env (decide (east ≠ 0)) st.go).2,
          st.ax ++ searchCalls ax axApp meWin wins ++
            [AXCall.focusWindow axApp b, AXCall.selectEdge east wait_ms]⟩)
      else
        (0, ⟨(tmuxTryPaneMove env (decide (east ≠ 0)) st.go).2,
          st.ax ++ searchCalls ax axApp meWin wins ++ [AXCall.focusWindow axApp b]⟩) := by
  have hgo := goTmuxTryPaneMove_of_not_moved env east st.go hmove
  have htr : ensure_trusted_i ax ≠ 0 := by simp [ensure_trusted_i, htrust]
  unfold alacritty_focus_neighbor_dbg
  simp only [hgo, ne_eq, not_true_eq_false, if_false, htr, happ, hala, Bool.not_true,
    Bool.false_eq_true, hwin, hrect, hwins, hbest, searchCalls]
  split_ifs <;> simp [List.append_assoc]

/-- In `rowWorld` the readable rectangles are those of `rowRects`. -/
theorem ax_get_rect_rowWorld : ax_get_rect rowWorld = rowRects := by
  funext w
  unfold ax_get_rect rowWorld
  cases h : rowRects w <;> simp [h]

/-- In `rowWorld` the east scan from window `0` finds window `2`. -/
theorem neighborScan_rowWorld_east :
    (neighborScan (ax_get_rect rowWorld) (decide ((1 : Int) ≠ 0)) 0 ⟨0, 0, 100, 100⟩
      [0, 1, 2, 3]).best = some 2 := by
  rw [ax_get_rect_rowWorld]
  decide

/-- C14, as stated, fails when edge landing is switched off: with `--no-edge`
the hopper passes `do_edge = 0`, and the orchestrator, having found and
focused the neighbor `2`, returns 0 without invoking the edge-landing step:
the trace ends with the focus call and nothing was sent to tmux. -/
theorem no_edge_skips_landing_counterexample :
    FocusNeighbor noTmuxEnv rowWorld 0 true false false 5 hopStart =
      (0, ⟨⟨[], 0⟩,
        [AXCall.ensureTrusted, AXCall.frontmostApp, AXCall.isAlacritty 100,
          AXCall.focusedWindow 100, AXCall.getRect 0, AXCall.windows 100,
          AXCall.getRect 1, AXCall.getRect 2, AXCall.getRect 3,
          AXCall.focusWindow 100 2]⟩) := by
  show alacritty_focus_neighbor_dbg noTmuxEnv rowWorld 1 0 0 (toCInt 5) (toCInt 0) hopStart = _
  rw [alacritty_focus_neighbor_dbg_found noTmuxEnv rowWorld 1 0 0 (toCInt 5) (toCInt 0)
    hopStart 100 0 ⟨0, 0, 100, 100⟩ [0, 1, 2, 3] 2 (by decide) rfl rfl (by decide) rfl
    (by rw [ax_get_rect_rowWorld]; rfl) rfl neighborScan_rowWorld_east]
  decide

/-- C14 (amended): whenever the window search finds a neighbor and focuses it,
`alacritty_focus_neighbor_dbg` returns 0; when `do_edge` is not zero (the
default, cleared by `--no-edge`) it invokes the edge-landing step
`goTmuxSelectEdge` once, as the last step after the focus call, and the return
value is 0 whatever that step does; when `do_edge` is zero the focus call is
the last step and nothing is sent to tmux. -/
theorem focus_then_edge_landing (env : Env) (ax : AXWorld)
    (east debug do_edge edge_steps wait_ms : Int) (st : HopState)
    (axApp meWin : AXUIElementRef) (meR : CGRect) (wins : List AXUIElementRef)
    (b : AXUIElementRef)
    (hmove : (tmuxTryPaneMove env (decide (east ≠ 0)) st.go).1 = false)
    (htrust : ax.trusted = true)
    (happ : (ax.frontmostApp <|> ax.focusedApp) = some axApp)
    (hala : app_is_alacritty ax axApp = true)
    (hwin : app_focused_window ax axApp = some meWin)
    (hrect : ax_get_rect ax meWin = some meR)
    (hwins : app_windows_retained ax axApp = some wins)
    (hbest : (neighborScan (ax_get_rect ax) (decide (east ≠ 0)) meWin meR wins).best = some b) :
    (alacritty_focus_neighbor_dbg env ax east debug do_edge edge_steps wait_ms st).1 = 0 ∧
    (do_edge ≠ 0 →
      (alacritty_focus_neighbor_dbg env ax east debug do_edge edge_steps wait_ms st).2 =
        ⟨goTmuxSelectEdge env east wait_ms (tmuxTryPaneMove env (decide (east ≠ 0)) st.go).2,
          st.ax ++ searchCalls ax axApp meWin wins ++
            [AXCall.focusWindow axApp b, AXCall.selectEdge east wait_ms]⟩) ∧
    (do_edge = 0 →
      (alacritty_focus_neighbor_dbg env ax east debug do_edge edge_steps wait_ms st).2 =
        ⟨(tmuxTryPaneMove env (decide (east ≠ 0)) st.go).2,
          st.ax ++ searchCalls ax axApp meWin wins ++ [AXCall.focusWindow axApp b]⟩) := by
  rw [alacritty_focus_neighbor_dbg_found env ax east debug do_edge edge_steps wait_ms st
    axApp meWin meR wins b hmove htrust happ hala hwin hrect hwins hbest]
  refine ⟨?_, ?_, ?_⟩
  · split_ifs <;> rfl
  · intro h
    simp [h]
  · intro h
    simp [h]

/-- The example of C14: in `rowWorld`, outside tmux, the hop east with
`do_edge = 1` focuses window `2`, invokes the edge-landing step last and
returns 0. -/
theorem focus_then_edge_landing_witness :
    (alacritty_focus_neighbor_dbg noTmuxEnv rowWorld 1 0 1 5 50 hopStart).1 = 0 ∧
    (alacritty_focus_neighbor_dbg noTmuxEnv rowWorld 1 0 1 5 50 hopStart).2 =
      ⟨goTmuxSelectEdge noTmuxEnv 1 50 (tmuxTryPaneMove noTmuxEnv (decide ((1 : Int) ≠ 0))
          hopStart.go).2,
        hopStart.ax ++ searchCalls rowWorld 100 0 [0, 1, 2, 3] ++
          [AXCall.focusWindow 100 2, AXCall.selectEdge 1 50]⟩ :=
  have h := focus_then_edge_landing noTmuxEnv rowWorld 1 0 1 5 50 hopStart 100 0
    ⟨0, 0, 100, 100⟩ [0, 1, 2, 3] 2 (by decide) rfl rfl (by decide) rfl
    (by rw [ax_get_rect_rowWorld]; rfl) rfl neighborScan_rowWorld_east
  ⟨h.1, h.2.1 (by decide)⟩

/-- The return code of the orchestrator as a decision list over the answers of
its collaborators. -/
theorem alacritty_focus_neighbor_dbg_rc (env : Env) (ax : AXWorld)
    (east debug do_edge edge_steps wait_ms : Int) (st : HopState) :
    (alacritty_focus_neighbor_dbg env ax east debug do_edge edge_steps wait_ms st).1 =
      if (tmuxTryPaneMove env (decide (east ≠ 0)) st.go).1 = true then 0
      else if ax.trusted = false then 20
      else
        match (ax.frontmostApp <|> ax.focusedApp) with
        | none => 10
        | some axApp =>
          if app_is_alacritty ax axApp = false then 1
          else
            match app_focused_window ax axApp with
            | none => 2
            | some meWin =>
              match ax_get_rect ax meWin with
              | none => 3
              | some meR =>
                match app_windows_retained ax axApp with
                | none => 4
                | some wins =>
                  if (neighborScan (ax_get_rect ax) (decide (east ≠ 0)) meWin meR wins).best
                      = none then 5
                  else 0 := by
  unfold alacritty_focus_neighbor_dbg goTmuxTryPaneMove ensure_trusted_i
  rcases hm : tmuxTryPaneMove env (decide (east ≠ 0)) st.go with ⟨m, g⟩
  cases m
  · cases ht : ax.trusted
    · simp
    · rcases hfa : (ax.frontmostApp <|> ax.focusedApp) with _ | axApp
      · simp
      · cases hal : app_is_alacritty ax axApp
        · simp [hal]
        · rcases hfw : app_focused_window ax axApp with _ | meWin
          · simp [hal, hfw]
          · rcases hr : ax_get_rect ax meWin with _ | meR
            · simp [hal, hfw, hr]
            · rcases hw : app_windows_retained ax axApp with _ | wins
              · simp [hal, hfw, hr, hw]
              · rcases hb : (neighborScan (ax_get_rect ax) (decide (east ≠ 0)) meWin meR
                  wins).best with _ | b
                · simp only [hal, hfw, hr, hw, hb]
                  simp
                · simp only [hal, hfw, hr, hw, hb]
                  split_ifs <;> simp_all
  · simp

/-- C16: every failure reason of `alacritty_focus_neighbor_dbg` has its own
code (permission denied 20, no front app 10, app not recognized 1, no focused
window 2, own geometry unreadable 3, window list unreadable 4, no neighbor
found 5), these codes are pairwise distinct and none is 0, and the function
returns 0 only when the pane move succeeded or the window search found a
neighbor and made the focus call on it. -/
theorem return_codes (env : Env) (ax : AXWorld)
    (east debug do_edge edge_steps wait_ms : Int) (st : HopState) :
    ((tmuxTryPaneMove env (decide (east ≠ 0)) st.go).1 = false → ax.trusted = false →
      (alacritty_focus_neighbor_dbg env ax east debug do_edge edge_steps wait_ms st).1 = 20) ∧
    ((tmuxTryPaneMove env (decide (east ≠ 0)) st.go).1 = false → ax.trusted = true →
      (ax.frontmostApp <|> ax.focusedApp) = none →
      (alacritty_focus_neighbor_dbg env ax east debug do_edge edge_steps wait_ms st).1 = 10) ∧
    (∀ axApp, (tmuxTryPaneMove env (decide (east ≠ 0)) st.go).1 = false → ax.trusted = true →
      (ax.frontmostApp <|> ax.focusedApp) = some axApp → app_is_alacritty ax axApp = false →
      (alacritty_focus_neighbor_dbg env ax east debug do_edge edge_steps wait_ms st).1 = 1) ∧
    (∀ axApp, (tmuxTryPaneMove env (decide (east ≠ 0)) st.go).1 = false → ax.trusted = true →
      (ax.frontmostApp <|> ax.focusedApp) = some axApp → app_is_alacritty ax axApp = true →
      app_focused_window ax axApp = none →
      (alacritty_focus_neighbor_dbg env ax east debug do_edge edge_steps wait_ms st).1 = 2) ∧
    (∀ axApp meWin, (tmuxTryPaneMove env (decide (east ≠ 0)) st.go).1 = false →
      ax.trusted = true → (ax.frontmostApp <|> ax.focusedApp) = some axApp →
      app_is_alacritty ax axApp = true → app_focused_window ax axApp = some meWin →
      ax_get_rect ax meWin = none →
      (alacritty_focus_neighbor_dbg env ax east debug do_edge edge_steps wait_ms st).1 = 3) ∧
    (∀ axApp meWin meR, (tmuxTryPaneMove env (decide (east ≠ 0)) st.go).1 = false →
      ax.trusted = true → (ax.frontmostApp <|> ax.focusedApp) = some axApp →
      app_is_alacritty ax axApp = true → app_focused_window ax axApp = some meWin →
      ax_get_rect ax meWin = some meR → app_windows_retained ax axApp = none →
      (alacritty_focus_neighbor_dbg env ax east debug do_edge edge_steps wait_ms st).1 = 4) ∧
    (∀ axApp meWin meR wins, (tmuxTryPaneMove env (decide (east ≠ 0)) st.go).1 = false →
      ax.trusted = true → (ax.frontmostApp <|> ax.focusedApp) = some axApp →
      app_is_alacritty ax axApp = true → app_focused_window ax axApp = some meWin →
      ax_get_rect ax meWin = some meR → app_windows_retained ax axApp = some wins →
      (neighborScan (ax_get_rect ax) (decide (east ≠ 0)) meWin meR wins).best = none →
      (alacritty_focus_neighbor_dbg env ax east debug do_edge edge_steps wait_ms st).1 = 5) ∧
    ([20, 10, 1, 2, 3, 4, 5] : List Int).Nodup ∧
    (0 : Int) ∉ ([20, 10, 1, 2, 3, 4, 5] : List Int) ∧
    ((alacritty_focus_neighbor_dbg env ax east debug do_edge edge_steps wait_ms st).1 = 0 →
      (tmuxTryPaneMove env (decide (east ≠ 0)) st.go).1 = true ∨
      ∃ axApp meWin meR wins b, ax.trusted = true ∧
        (ax.frontmostApp <|> ax.focusedApp) = some axApp ∧
        app_is_alacritty ax axApp = true ∧ app_focused_window ax axApp = some meWin ∧
        ax_get_rect ax meWin = some meR ∧ app_windows_retained ax axApp = some wins ∧
        (neighborScan (ax_get_rect ax) (decide (east ≠ 0)) meWin meR wins).best = some b ∧
        AXCall.focusWindow axApp b ∈
          (alacritty_focus_neighbor_dbg env ax east debug do_edge edge_steps wait_ms st).2.ax) := by
  refine ⟨?_, ?_, ?_, ?_, ?_, ?_, ?_, by decide, by decide, ?_⟩
  · intro hm ht
    rw [alacritty_focus_neighbor_dbg_rc]
    simp only [hm, ht]
    simp
  · intro hm ht hfa
    rw [alacritty_focus_neighbor_dbg_rc]
    simp only [hm, ht, hfa]
    simp
  · intro axApp hm ht hfa hal
    rw [alacritty_focus_neighbor_dbg_rc]
    simp only [hm, ht, hfa, hal]
    simp
  · intro axApp hm ht hfa hal hfw
    rw [alacritty_focus_neighbor_dbg_rc]
    simp only [hm, ht, hfa, hal, hfw]
    simp
  · intro axApp meWin hm ht hfa hal hfw hr
    rw [alacritty_focus_neighbor_dbg_rc]
    simp only [hm, ht, hfa, hal, hfw, hr]
    simp
  · intro axApp meWin meR hm ht hfa hal hfw hr hw
    rw [alacritty_focus_neighbor_dbg_rc]
    simp only [hm, ht, hfa, hal, hfw, hr, hw]
    simp
  · intro axApp meWin meR wins hm ht hfa hal hfw hr hw hb
    rw [alacritty_focus_neighbor_dbg_rc]
    simp only [hm, ht, hfa, hal, hfw, hr, hw, hb]
    simp
  · intro h0
    cases hm : (tmuxTryPaneMove env (decide (east ≠ 0)) st.go).1
    · right
      rw [alacritty_focus_neighbor_dbg_rc] at h0
      simp only [hm, Bool.false_eq_true, if_false] at h0
      cases ht : ax.trusted
      · simp [ht] at h0
      · rcases hfa : (ax.frontmostApp <|> ax.focusedApp) with _ | axApp
        · simp [ht, hfa] at h0
        · cases hal : app_is_alacritty ax axApp
          · simp [ht, hfa, hal] at h0
          · rcases hfw : app_focused_window ax axApp with _ | meWin
            · simp [ht, hfa, hal, hfw] at h0
            · rcases hr : ax_get_rect ax meWin with _ | meR
              · simp [ht, hfa, hal, hfw, hr] at h0
              · rcases hw : app_windows_retained ax axApp with _ | wins
                · simp [ht, hfa, hal, hfw, hr, hw] at h0
                · rcases hb : (neighborScan (ax_get_rect ax) (decide (east ≠ 0)) meWin meR
                    wins).best with _ | b
                  · simp only [ht, hfa, hal, hfw, hr, hw, hb] at h0
                    simp at h0
                  · refine ⟨axApp, meWin, meR, wins, b, rfl, rfl, hal, hfw, hr, hw, hb, ?_⟩
                    rw [alacritty_focus_neighbor_dbg_found env ax east debug do_edge edge_steps
                      wait_ms st axApp meWin meR wins b hm ht hfa hal hfw hr hw hb]
                    split_ifs <;> simp
    · left
      rfl

/-- The example of C16: in `bandWorld`, outside tmux, the hop west finds no
neighbor and reports 5; with the runner of the test `Success` the hop east
reports 0, and then the pane move succeeded or a neighbor was focused. -/
theorem return_codes_witness :
    (alacritty_focus_neighbor_dbg noTmuxEnv bandWorld 0 0 1 5 0 hopStart).1 = 5 ∧
    ((tmuxTryPaneMove successEnv (decide ((1 : Int) ≠ 0)) hopStart.go).1 = true ∨
      ∃ axApp meWin meR wins b, bandWorld.trusted = true ∧
        (bandWorld.frontmostApp <|> bandWorld.focusedApp) = some axApp ∧
        app_is_alacritty bandWorld axApp = true ∧
        app_focused_window bandWorld axApp = some meWin ∧
        ax_get_rect bandWorld meWin = some meR ∧
        app_windows_retained bandWorld axApp = some wins ∧
        (neighborScan (ax_get_rect bandWorld) (decide ((1 : Int) ≠ 0)) meWin meR wins).best
          = some b ∧
        AXCall.focusWindow axApp b ∈
          (alacritty_focus_neighbor_dbg successEnv bandWorld 1 0 1 5 0 hopStart).2.ax) :=
  ⟨(return_codes noTmuxEnv bandWorld 0 0 1 5 0 hopStart).2.2.2.2.2.2.1 100 0 ⟨0, 0, 100, 100⟩
      [0, 1] (by decide) rfl rfl (by decide) rfl rfl rfl
      (by decide),
   (return_codes successEnv bandWorld 1 0 1 5 0 hopStart).2.2.2.2.2.2.2.2.2 (by decide)⟩

end TtyHop
